import Mathlib

/-!
Shallow embedding of the download orchestration and integrity-verification
pipeline of the repository (src/components/star-actions.tsx).

Modelling conventions:
- JavaScript numbers are modelled as exact rationals; every numeric value
  reached in this development (delays multiplied by 1.5, progress fractions
  with power-of-two denominators) is exactly representable as a double, so
  the rational model agrees with the double-precision source.
- Filesystem reads, the subprocess, the external error classifier
  (utils/ipatool-error-patterns, not part of the packaged sources), the
  authentication collaborator and the metadata lookup are oracles: each
  invocation of the orchestrator carries the responses those collaborators
  give during that invocation. Collaborator calls used only for logging or
  notification are recorded in the output trace where a claim observes them.
- Promise settlement is modelled exactly: the retry sites inside the
  process close handler execute resolve(await downloadApp(...)) inside an
  async event callback without a try/catch, so a rejection of the recursive
  call never settles the outer promise; this is the Settle.hungAfter case.
  The process error handler wraps its retry in try/catch and propagates,
  and the license branch catches the rejection of its retry.
-/

namespace IpaDownload

/-- Occurrence of a pattern at some position of a character list. -/
def containsFrom (pat : List Char) : List Char → Bool
  | [] => pat.isEmpty
  | c :: rest => pat.isPrefixOf (c :: rest) || containsFrom pat rest

/-- Substring test, mirroring the JavaScript String.prototype.includes calls
used throughout the source. -/
def strContains (s pat : String) : Bool :=
  containsFrom pat.data s.data

/-- ASCII lowercasing of one character, the fragment of JS toLowerCase the
tool output exercises. -/
def charLower (c : Char) : Char :=
  if 65 ≤ c.toNat ∧ c.toNat ≤ 90 then Char.ofNat (c.toNat + 32) else c

/-- ASCII lowercasing, mirroring JS String.prototype.toLowerCase. -/
def strToLower (s : String) : String :=
  String.mk (s.data.map charLower)

/-- Leading-substring test, mirroring JS String.prototype.startsWith. -/
def strStartsWith (s pre : String) : Bool :=
  pre.data.isPrefixOf s.data

/-- Trailing-substring test, mirroring JS String.prototype.endsWith. -/
def strEndsWith (s suff : String) : Bool :=
  suff.data.reverse.isPrefixOf s.data.reverse

/-- ASCII whitespace as trimmed from tool output lines. -/
def isWhitespaceChar (c : Char) : Bool :=
  c == ' ' || c == '\t' || c == '\n' || c == '\r'

/-- Whitespace trimming, mirroring JS String.prototype.trim on the ASCII
whitespace the tool emits. -/
def strTrim (s : String) : String :=
  String.mk (((s.data.dropWhile isWhitespaceChar).reverse.dropWhile isWhitespaceChar).reverse)

/-- Newline splitting of a character list. -/
def splitLinesAux : List Char → List Char → List (List Char)
  | [], acc => [acc.reverse]
  | c :: rest, acc =>
    if c == '\n' then acc.reverse :: splitLinesAux rest []
    else splitLinesAux rest (c :: acc)

/-- Newline splitting, mirroring the split on the newline string applied to
the combined tool output. -/
def splitLines (s : String) : List String :=
  (splitLinesAux s.data []).map String.mk

/-- JS truthiness of an optional byte count: undefined and 0 are falsy. -/
def jsTruthySize : Option Nat → Bool
  | none => false
  | some n => decide (n ≠ 0)

/-- JS String.prototype.replace with a plain-string pattern replaces only the
first occurrence. -/
def jsReplaceFirst (s pat repl : String) : String :=
  match s.splitOn pat with
  | [] => s
  | [_] => s
  | first :: rest => first ++ repl ++ String.intercalate pat rest

/-- JS Math.round on a nonnegative value: floor of the value plus one half. -/
def jsRound (q : ℚ) : ℤ := ⌊q + 1 / 2⌋

/-- Numeric value of a digit string. -/
def digitsToNat (ds : List Char) : Nat :=
  ds.foldl (fun acc c => acc * 10 + (c.toNat - '0'.toNat)) 0

/-- JS parseFloat restricted to the plain decimal shapes the price strings of
this repository take: optional sign, integer digits, optional fraction.
Returns none where parseFloat returns NaN. -/
def parseFloatQ (s : String) : Option ℚ :=
  let cs := s.data.dropWhile (fun c => c == ' ' || c == '\t' || c == '\n' || c == '\r')
  let signAndRest : ℚ × List Char :=
    match cs with
    | '-' :: t => (-1, t)
    | '+' :: t => (1, t)
    | _ => (1, cs)
  let intPart := signAndRest.2.takeWhile Char.isDigit
  let afterInt := signAndRest.2.drop intPart.length
  let fracPart :=
    match afterInt with
    | '.' :: t => t.takeWhile Char.isDigit
    | _ => []
  if intPart.isEmpty && fracPart.isEmpty then none
  else
    some (signAndRest.1 *
      ((digitsToNat intPart : ℚ) + (digitsToNat fracPart : ℚ) / (10 : ℚ) ^ fracPart.length))

/-- Retry configuration constants of the source module. -/
def MAX_RETRIES : Nat := 3

/-- Initial delay between retries, 2 seconds, in milliseconds. -/
def INITIAL_RETRY_DELAY : ℚ := 2000

/-- Maximum delay between retries, 10 seconds, in milliseconds. -/
def MAX_RETRY_DELAY : ℚ := 10000

/-- Disk space fallback floor in MB when no expected size is available. -/
def MIN_DISK_SPACE_MB : Nat := 300

/-- Bytes per MB as used by the source. -/
def BYTES_PER_MB : Nat := 1024 * 1024

/-- Minimum plausible size of a downloaded archive, 1 MB. -/
def MIN_FILE_SIZE_BYTES : Nat := 1024 * 1024

/-- Result record of prerequisite validation. -/
structure ValidationResult where
  isValid : Bool
  errorMessage : Option String := none
  cancelled : Option Bool := none
deriving DecidableEq, Repr

/-- Result record of file integrity verification. -/
structure IntegrityResult where
  isValid : Bool
  errorMessage : Option String := none
  shouldRetry : Option Bool := none
deriving DecidableEq, Repr

/-- Error categories reported by the external classifier. -/
inductive ErrorType
  | network
  | timeout
  | rate_limited
  | maintenance
  | auth
  | license_required
  | unknown
deriving DecidableEq, Repr

/-- Output of the external error classifier analyzeIpatoolError. The
classifier itself ships outside the packaged sources, so the orchestrator
model takes its (deterministic) output per failing attempt as an oracle. -/
structure ErrorAnalysis where
  errorType : ErrorType
  isAuthError : Bool
  isLicenseRequired : Bool
  userMessage : String
deriving DecidableEq, Repr

/-- Price eligibility check of the source: an app is free when the price
string is present and parses to exactly zero. -/
def isFreeApp (price : String) : Bool :=
  if price = "" then false
  else
    match parseFloatQ price with
    | some q => decide (q = 0)
    | none => false

/-- Replacement of filesystem-invalid characters by a dash, as applied to
app names before they become filenames. -/
def sanitizeName (s : String) : String :=
  String.mk (s.data.map fun c =>
    if c ∈ ['/', '\\', '?', '%', '*', ':', '|', '"', '<', '>'] then '-' else c)

/-- Outcome of the network reachability probe of prerequisite validation:
a confirmed pass, a confirmed failure of a probe that did run, or a probe
mechanism unavailable in the sandbox (treated as inconclusive). -/
inductive NetProbe
  | passed
  | failedProbe
  | unavailable
deriving DecidableEq, Repr

/-- Filesystem and collaborator responses consumed by one run of
validateDownloadPrereqs: write permission, available bytes from statfs
(none when the probe itself throws), the downloads directory listing with
file sizes, the user answer to the overwrite confirmation, and the network
probe outcome. -/
structure PrereqEnv where
  writeOk : Bool
  statfsAvail : Option Nat
  dirFiles : List (String × Nat)
  confirmOverwrite : Bool
  probe : NetProbe
deriving DecidableEq, Repr

/-- Size of a directory entry, none when the file is absent. -/
def lookupFile (files : List (String × Nat)) (name : String) : Option Nat :=
  (files.find? (fun p => p.1 == name)).map (fun p => p.2)

/-- Search for a pre-existing download: exact candidate filenames in
preference order, then the fuzzy scan over the directory listing. -/
def findExistingFile (env : PrereqEnv) (bundleId appName : String) (appVersion : String) :
    Option (String × Nat) :=
  let sanitized : Option String := if appName = "" then none else some (sanitizeName appName)
  let possible : List String :=
    List.reduceOption
      [some (bundleId ++ ".ipa"),
       match sanitized with
       | some sn => if appVersion ≠ "" then some (sn ++ " " ++ appVersion ++ ".ipa") else none
       | none => none,
       sanitized.map (fun sn => sn ++ ".ipa")]
  let exact := possible.findSome? (fun name =>
    (lookupFile env.dirFiles name).map (fun sz => (name, sz)))
  match exact with
  | some pr => some pr
  | none =>
    let lowerName := sanitized.map strToLower
    let allowFuzzy :=
      match lowerName with
      | some ln => decide (3 ≤ ln.length)
      | none => false
    let similar := env.dirFiles.filter (fun p =>
      if !(strEndsWith p.1 ".ipa") then false
      else if strContains p.1 bundleId then true
      else
        match lowerName with
        | some ln => allowFuzzy && strStartsWith (strToLower p.1) (ln ++ " ")
        | none => false)
    similar.head?

/-- Prerequisite validation: write permission, disk space (skipped when the
statfs probe throws), pre-existing file conflict with user confirmation,
network reachability. Declining the overwrite yields the cancelled result. -/
def validateDownloadPrereqs (env : PrereqEnv) (bundleId appName : String)
    (expectedSizeBytes : Option Nat) (appVersion : String) : ValidationResult :=
  if !env.writeOk then
    { isValid := false
      errorMessage := some "Cannot write to downloads directory. Please check permissions or change the download path in preferences." }
  else
    let requiredSpaceBytes :=
      match expectedSizeBytes with
      | some n => if n = 0 then MIN_DISK_SPACE_MB * BYTES_PER_MB else n
      | none => MIN_DISK_SPACE_MB * BYTES_PER_MB
    let diskFail :=
      match env.statfsAvail with
      | some avail => decide (avail < requiredSpaceBytes)
      | none => false
    if diskFail then
      { isValid := false
        errorMessage := some "Insufficient disk space. Please free up space or change download location." }
    else
      let existing := findExistingFile env bundleId appName appVersion
      let afterConflict : Option ValidationResult :=
        match existing with
        | some _ =>
          if env.confirmOverwrite then none
          else
            some { isValid := false
                   errorMessage := some "App already exists and wont be downloaded again."
                   cancelled := some true }
        | none => none
      match afterConflict with
      | some r => r
      | none =>
        match env.probe with
        | .failedProbe =>
          { isValid := false
            errorMessage := some "Network connectivity check failed. Please check your internet connection and try again." }
        | _ => { isValid := true }

/-- Result of opening a downloaded file as a zip archive: the error message
thrown by the archive library, or the list of entry names. -/
inductive ZipResult
  | bad (msg : String)
  | entriesOk (entries : List String)
deriving DecidableEq, Repr

/-- Contents of a downloaded file as far as integrity verification reads
them: its byte size and the result of opening it as a zip archive. -/
structure FileModel where
  size : Nat
  zip : ZipResult
deriving DecidableEq, Repr

/-- JSON metadata found in the tool output and handed to integrity
verification: the optional numeric fileSize and the optional checksum. -/
structure IpatoolMeta where
  fileSize : Option Nat := none
  checksum : Option String := none
deriving DecidableEq, Repr

/-- Entry-name test for the Payload application bundle structure. -/
def isPayloadAppEntry (e : String) : Bool :=
  strStartsWith e "Payload/" && strContains e ".app/"

/-- Entry-name test for the application plist. -/
def isInfoPlistEntry (e : String) : Bool :=
  strContains e "Info.plist"

/-- File integrity verification: existence, 1 MB size floor, readable zip
with at least one entry, required Payload application bundle and plist
entries, and the optional 5 percent size cross-check against metadata.
The checksum branch of the source is an explicit no-op. A failed unlink of
a corrupted file is logged and ignored by the caller, hence not modelled. -/
def verifyFileIntegrity (filePath : String) (file : Option FileModel)
    (meta : Option IpatoolMeta) : IntegrityResult :=
  match file with
  | none =>
    { isValid := false
      errorMessage := some ("Downloaded file not found: " ++ filePath)
      shouldRetry := some true }
  | some f =>
    if f.size < MIN_FILE_SIZE_BYTES then
      { isValid := false
        errorMessage := some ("Downloaded file too small: " ++
          toString (jsRound ((f.size : ℚ) / 1024)) ++ " KB (minimum: 1 MB)")
        shouldRetry := some true }
    else
      match f.zip with
      | .bad e =>
        { isValid := false
          errorMessage := some ("Downloaded file is not a valid ZIP/IPA archive: " ++ e)
          shouldRetry := some true }
      | .entriesOk entries =>
        if entries.length = 0 then
          { isValid := false
            errorMessage := some "Downloaded IPA file is empty or corrupted"
            shouldRetry := some true }
        else
          let foundPayloadApp := entries.any isPayloadAppEntry
          let foundInfoPlist := entries.any isInfoPlistEntry
          if !foundPayloadApp then
            { isValid := false
              errorMessage := some "Downloaded IPA file missing required Payload/*.app structure"
              shouldRetry := some true }
          else if !foundInfoPlist then
            { isValid := false
              errorMessage := some "Downloaded IPA file missing required Info.plist"
              shouldRetry := some true }
          else
            match meta with
            | some m =>
              match m.fileSize with
              | some expected =>
                if expected = 0 then { isValid := true }
                else if |(f.size : ℚ) - (expected : ℚ)| > (expected : ℚ) * (5 / 100) then
                  { isValid := false
                    errorMessage := some ("File size mismatch: expected " ++
                      toString (jsRound ((expected : ℚ) / (BYTES_PER_MB : ℚ))) ++ " MB, got " ++
                      toString (jsRound ((f.size : ℚ) / (BYTES_PER_MB : ℚ))) ++ " MB")
                    shouldRetry := some true }
                else { isValid := true }
              | none => { isValid := true }
            | none => { isValid := true }

/-- Fields of a parsed JSON line that the purchase step reads: the success
flag, the message field and the error field, each present only when the
parsed object carries a value of the type the source compares against. -/
structure JsonLine where
  success : Option Bool := none
  message : Option String := none
  error : Option String := none
deriving DecidableEq, Repr

/-- Outcome of the spawned purchase subprocess as surfaced by spawnAsync:
the collected stdout and stderr on exit code zero, or the message of the
rejection (non-zero exit or process error). -/
inductive PurchaseSpawn
  | ok (stdout stderr : String)
  | err (msg : String)
deriving DecidableEq, Repr

/-- Candidate JSON lines of the combined output: split on newlines, trimmed,
kept when delimited by braces. -/
def jsonCandidateLines (combined : String) : List String :=
  ((splitLines combined).map strTrim).filter
    (fun l => strStartsWith l "\x7b" && strEndsWith l "\x7d")

/-- Per-line success test of the purchase loop, in source order: success flag
strictly true or message equal to "license obtained", else an error field
whose lowercase form mentions an existing purchase. -/
def purchaseLineSuccess (obj : JsonLine) : Bool :=
  if obj.success == some true || obj.message == some "license obtained" then true
  else
    match obj.error with
    | some e =>
      strContains (strToLower e) "already purchased" || strContains (strToLower e) "already owned"
    | none => false

/-- License acquisition step purchaseApp. The JSON.parse built-in is the
oracle parse; lines it fails on are skipped. The trailing error analysis of
the source only routes a notification and always falls through to false, and
the outer catch also returns false, so the function settles with a boolean
on every path. HUD and toast calls are display-only and not modelled. -/
def purchaseApp (sp : PurchaseSpawn) (parse : String → Option JsonLine) : Bool :=
  match sp with
  | .err _ => false
  | .ok stdout stderr =>
    let combined := stdout ++ "\n" ++ stderr
    let combinedLower := strToLower combined
    if strContains combinedLower "\"success\": true" ||
       strContains combinedLower "license obtained" ||
       strContains combinedLower "already purchased" ||
       strContains combinedLower "already owned" then true
    else
      match (jsonCandidateLines combined).findSome? (fun l =>
        match parse l with
        | some obj => if purchaseLineSuccess obj then some true else none
        | none => none) with
      | some b => b
      | none => false

/-- Success condition of the purchase step as the claims state it: a quick
substring marker in the combined output, or some candidate JSON line that
parses to an object with the success flag, the license-obtained message, or
an already-owned error field. Stated independently of the loop structure of
the source for comparison with purchaseApp. -/
def purchaseSuccessClaim (sp : PurchaseSpawn) (parse : String → Option JsonLine) : Bool :=
  match sp with
  | .err _ => false
  | .ok stdout stderr =>
    let combined := stdout ++ "\n" ++ stderr
    (strContains (strToLower combined) "\"success\": true" ||
     strContains (strToLower combined) "license obtained" ||
     strContains (strToLower combined) "already purchased" ||
     strContains (strToLower combined) "already owned") ||
    (jsonCandidateLines combined).any (fun l =>
      match parse l with
      | some obj => purchaseLineSuccess obj
      | none => false)

/-- State of the progress polling loop: the last reported progress fraction
and the file size at the last report, both reset to zero at the start of
every attempt. -/
structure ProgressState where
  lastProgress : ℚ
  lastReportedSize : Nat
deriving DecidableEq, Repr

/-- One tick of the 250 ms progress interval: skipped without an expected
size, otherwise the observed file size (none when no matching file exists
yet) is reported when it grew by more than 512 KB since the last report or
equals the expected size, and the progress fraction is emitted only when it
exceeds the last reported fraction. -/
def progressTick (expected : Nat) (st : ProgressState) (obs : Option Nat) :
    ProgressState × Option ℚ :=
  if expected = 0 then (st, none)
  else
    match obs with
    | none => (st, none)
    | some currentSize =>
      let shouldReport :=
        decide (st.lastReportedSize + 512 * 1024 < currentSize) ||
        decide (currentSize = expected)
      if shouldReport then
        let progress : ℚ := min ((currentSize : ℚ) / (expected : ℚ)) 1
        if st.lastProgress < progress then
          ({ lastProgress := progress, lastReportedSize := currentSize }, some progress)
        else (st, none)
      else (st, none)

/-- Progress fractions emitted over a sequence of polled file sizes from a
given state. -/
def progressEmits (expected : Nat) : ProgressState → List (Option Nat) → List ℚ
  | _, [] => []
  | st, o :: rest =>
    match progressTick expected st o with
    | (st2, some q) => q :: progressEmits expected st2 rest
    | (st2, none) => progressEmits expected st2 rest

/-- Progress fractions emitted during one attempt, starting from the zero
state. -/
def progressRun (expected : Nat) (obs : List (Option Nat)) : List ℚ :=
  progressEmits expected { lastProgress := 0, lastReportedSize := 0 } obs

/-- Transient-network test applied on the non-zero-exit path: substring
checks over the collected stderr and over the error field parsed from the
stdout JSON lines. -/
def isNetworkError (stderr specificError : String) : Bool :=
  strContains stderr "TLS" || strContains stderr "network" || strContains stderr "connection" ||
  strContains specificError "tls" || strContains specificError "network" ||
  strContains specificError "connection" || strContains specificError "bad record MAC"

/-- Transient-network test applied in the process error handler. -/
def isTlsError (msg : String) : Bool :=
  strContains msg "tls: bad record MAC" || strContains msg "network error" ||
  strContains msg "connection reset"

/-- What the spawned download subprocess does during one attempt. The exit
case carries the collaborator responses the close handler consumes: the
collected stderr, the error field parsed from the stdout JSON lines, the
classifier output for the failure text, the resolved file path (empty when
no path was found), the file as the filesystem presents it (none when the
path does not exist), the JSON metadata found for integrity verification,
and the post-rename path when the rename succeeds. -/
inductive ProcEvent
  | spawnFail (msg : String)
  | stalled
  | errEvent (msg : String)
  | exit (code : ℤ) (stderr specificError : String) (analysis : ErrorAnalysis)
      (filePath : String) (fileOnDisk : Option FileModel) (meta : Option IpatoolMeta)
      (renamedTo : Option String)
deriving DecidableEq, Repr

/-- Outcome of the awaited purchase step as the license branch sees it: a
boolean return, or a thrown error with its message (the catch around the
branch also receives rejections of the retry it dispatches). -/
inductive PurchaseOutcome
  | returns (b : Bool)
  | threw (msg : String)
deriving DecidableEq, Repr

/-- Collaborator responses for one invocation of downloadApp: the metadata
lookup size, the filesystem and user responses for prerequisite validation,
the authentication check, the subprocess behaviour, and the purchase step
outcome. -/
structure Invocation where
  itunesSize : Option Nat
  prereq : PrereqEnv
  authOk : Bool
  proc : ProcEvent
  purchase : PurchaseOutcome
deriving DecidableEq, Repr

/-- Static identity of the app a download run is about. -/
structure AppInfo where
  bundleId : String
  appName : String
  appVersion : String
  price : String
deriving DecidableEq, Repr

/-- Reason an invocation resolved to null. -/
inductive NullReason
  | overwriteDeclined
  | authUnavailable
deriving DecidableEq, Repr

/-- Instrumentation record of one invocation: the retry count and delay it
was entered with, the expected-size option it received, whether prerequisite
validation ran, how many metadata lookups it issued, the expected size it
resolved for progress tracking and retries, and the null-skip reason when it
returned null. -/
structure InvRecord where
  rc : Nat
  delay : ℚ
  optExpected : Option Nat
  validated : Bool
  fetches : Nat
  resolvedExpected : Option Nat
  nullSkip : Option NullReason
deriving DecidableEq, Repr

/-- Errors a downloadApp invocation can terminate with: a rethrown
prerequisite validation failure, the distinguished needs-login rejection,
the generic process failure rejection, an integrity verification rejection,
the stall rejection, a process error, or a failed process creation. -/
inductive DlError
  | validation (msg : String)
  | needsLogin (msg : String)
  | download (msg : String)
  | integrity (msg : String)
  | stalledErr (msg : String)
  | procError (msg : String)
  | spawnError (msg : String)
deriving DecidableEq, Repr

/-- Message carried by an error, as read by the catch of the license retry. -/
def DlError.message : DlError → String
  | .validation m => m
  | .needsLogin m => m
  | .download m => m
  | .integrity m => m
  | .stalledErr m => m
  | .procError m => m
  | .spawnError m => m

/-- Settlement of the promise returned by downloadApp: resolution (none is
the null resolution), rejection, or a promise that never settles because an
await of a recursive retry threw inside the close event callback, leaving
the given rejection unhandled. -/
inductive Settle
  | resolved (v : Option String)
  | rejected (e : DlError)
  | hungAfter (e : DlError)
deriving DecidableEq, Repr

/-- Output of a downloadApp run: the settlement (none when the supplied
invocation environment was exhausted before the run terminated), the
instrumentation records in invocation order, the number of download
subprocess spawns, the number of purchase step calls, the corrupted files
handed to unlink, and the messages routed to the download error handler. -/
structure DlOut where
  result : Option Settle
  trace : List InvRecord
  spawns : Nat
  purchases : Nat
  deleted : List String
  handledErrors : List String
deriving DecidableEq, Repr

/-- Run that consumed no invocation: the environment is exhausted. -/
def DlOut.fuelOut : DlOut :=
  { result := none, trace := [], spawns := 0, purchases := 0, deleted := [], handledErrors := [] }

/-- Output of an invocation that terminates without a recursive retry. -/
def single (rec : InvRecord) (spawns purchases : Nat) (deleted handled : List String)
    (res : Option Settle) : DlOut :=
  { result := res, trace := [rec], spawns := spawns, purchases := purchases,
    deleted := deleted, handledErrors := handled }

/-- Output of an invocation that dispatched a recursive retry: effects before
the retry, the retry output, and effects after the retry returned. -/
def chain (rec : InvRecord) (spawns purchases : Nat)
    (deleted preHandled postHandled : List String) (sub : DlOut) (res : Option Settle) : DlOut :=
  { result := res, trace := rec :: sub.trace, spawns := spawns + sub.spawns,
    purchases := purchases + sub.purchases, deleted := deleted ++ sub.deleted,
    handledErrors := preHandled ++ sub.handledErrors ++ postHandled }

/-- Settlement seen by the caller when a close-handler retry site awaited the
recursive call without a try/catch: a resolution propagates through resolve,
but a rejection throws inside the async close callback and the outer promise
never settles. -/
def closeSettle : Option Settle → Option Settle
  | some (.rejected e) => some (.hungAfter e)
  | o => o

/-- Expected size visible after the resolution step: the caller-supplied
option when truthy, else the metadata lookup value on an initial attempt,
else the caller-supplied option unchanged. -/
def resolveExpected (inv : Invocation) (rc : Nat) (optExp : Option Nat) : Option Nat :=
  if jsTruthySize optExp then optExp
  else if rc = 0 ∧ jsTruthySize inv.itunesSize then inv.itunesSize
  else optExp

/-- How an invocation continues after its own work: it settles by itself, it
dispatches a retry from a close-handler site (resolve and await with no
try/catch, so a rejection of the retry hangs the outer promise), it
dispatches a retry from the process error handler (wrapped in try/catch, so
the retry settlement propagates), or it dispatches the license retry whose
rejection is caught by the surrounding catch and rerouted (the catch needs
the auth flag, the display name and the generic rejection message). -/
inductive StepNext
  | done (res : Settle)
  | retryClose (rc : Nat) (delay : ℚ)
  | retryErr (rc : Nat) (delay : ℚ)
  | retryLicense (isAuthErr : Bool) (nameRef : String) (genericMsg : String)
deriving DecidableEq, Repr

/-- Everything one invocation of downloadApp does before any retry: its
instrumentation record, its own spawn and purchase counts, the files it
unlinked, the messages it routed to the download error handler, and how it
continues. -/
structure StepOut where
  record : InvRecord
  spawns : Nat
  purchases : Nat
  deleted : List String
  handled : List String
  next : StepNext
deriving DecidableEq, Repr

/-- Effects bundle of the subprocess stage of one invocation: spawn and
purchase counts, unlinked files, messages routed to the download error
handler, and the continuation. -/
structure StepEffects where
  spawns : Nat
  purchases : Nat
  deleted : List String
  handled : List String
  next : StepNext
deriving DecidableEq, Repr

/-- Metadata lookup issued by the validation block of an initial attempt
without a caller-supplied size. -/
def stepFetchesVal (rc : Nat) (optExp : Option Nat) : Nat :=
  if rc = 0 ∧ jsTruthySize optExp = false then 1 else 0

/-- All metadata lookups of one invocation that reaches the subprocess: the
validation block lookup plus the progress-tracking lookup. -/
def stepFetchesAll (rc : Nat) (optExp : Option Nat) : Nat :=
  stepFetchesVal rc optExp + (if jsTruthySize optExp = false ∧ rc = 0 then 1 else 0)

/-- Instrumentation record of one invocation. -/
def mkStepRec (inv : Invocation) (rc : Nat) (delay : ℚ) (optExp : Option Nat)
    (fetches : Nat) (ns : Option NullReason) : InvRecord :=
  { rc := rc, delay := delay, optExpected := optExp, validated := decide (rc = 0),
    fetches := fetches, resolvedExpected := resolveExpected inv rc optExp, nullSkip := ns }

/-- Close-handler routing on a nonzero exit code, mirroring the source:
transient network retry, timeout retry, rate-limit and maintenance backoff,
the license acquisition branch for free non-vendor apps, and the terminal
routing through the needs-login rejection or the generic rejection. -/
def exitFailEffects (app : AppInfo) (purchase : PurchaseOutcome) (rc : Nat) (delay : ℚ)
    (code : ℤ) (stderr specificError : String) (analysis : ErrorAnalysis) : StepEffects :=
  if isNetworkError stderr specificError = true ∧ rc < MAX_RETRIES then
    { spawns := 1, purchases := 0, deleted := [], handled := [],
      next := .retryClose (rc + 1) (min (delay * (3 / 2)) MAX_RETRY_DELAY) }
  else if analysis.errorType = .timeout ∧ rc < MAX_RETRIES then
    { spawns := 1, purchases := 0, deleted := [], handled := [],
      next := .retryClose (rc + 1) (min (delay * (3 / 2)) MAX_RETRY_DELAY) }
  else if (analysis.errorType = .rate_limited ∨ analysis.errorType = .maintenance) ∧
      rc < MAX_RETRIES then
    { spawns := 1, purchases := 0, deleted := [], handled := [],
      next := .retryClose (rc + 1) (min ((⌊(max delay 5000) * (3 / 2)⌋ : ℤ) : ℚ) 30000) }
  else
    let nameRef := if app.appName = "" then app.bundleId else app.appName
    let finalMsg0 :=
      if strContains analysis.userMessage nameRef then analysis.userMessage
      else jsReplaceFirst analysis.userMessage "App" ("\"" ++ nameRef ++ "\"")
    let genericMsg := "Process exited with code " ++ toString code
    if analysis.isLicenseRequired = true ∧ isFreeApp app.price = true then
      if strStartsWith app.bundleId "com.apple." then
        let m := "\"" ++ nameRef ++ "\" is an Apple built-in app and cannot be downloaded using third-party tools like ipatool. These apps are pre-installed on iOS devices or available only through official Apple channels."
        if analysis.isAuthError then
          { spawns := 1, purchases := 0, deleted := [], handled := [],
            next := .done (.rejected (.needsLogin m)) }
        else
          { spawns := 1, purchases := 0, deleted := [], handled := [m],
            next := .done (.rejected (.download genericMsg)) }
      else
        match purchase with
        | .returns true =>
          { spawns := 1, purchases := 1, deleted := [], handled := [],
            next := .retryLicense analysis.isAuthError nameRef genericMsg }
        | .returns false =>
          let m := "License purchase failed for free app \"" ++ nameRef ++
            "\". This may be due to authentication issues or App Store restrictions."
          if analysis.isAuthError then
            { spawns := 1, purchases := 1, deleted := [], handled := [],
              next := .done (.rejected (.needsLogin m)) }
          else
            { spawns := 1, purchases := 1, deleted := [], handled := [m],
              next := .done (.rejected (.download genericMsg)) }
        | .threw emsg =>
          let m := "License purchase failed for free app \"" ++ nameRef ++ "\": " ++ emsg
          if analysis.isAuthError then
            { spawns := 1, purchases := 1, deleted := [], handled := [],
              next := .done (.rejected (.needsLogin m)) }
          else
            { spawns := 1, purchases := 1, deleted := [], handled := [m],
              next := .done (.rejected (.download genericMsg)) }
    else
      if analysis.isAuthError then
        { spawns := 1, purchases := 0, deleted := [], handled := [],
          next := .done (.rejected (.needsLogin finalMsg0)) }
      else
        { spawns := 1, purchases := 0, deleted := [], handled := [finalMsg0],
          next := .done (.rejected (.download genericMsg)) }

/-- Close-handler routing on a clean exit: file path resolution outcome,
integrity verification, deletion of a corrupted artifact with the single
automatic retry, and the best-effort rename on success. -/
def exitOkEffects (app : AppInfo) (rc : Nat) (filePath : String)
    (fileOnDisk : Option FileModel) (meta : Option IpatoolMeta)
    (renamedTo : Option String) : StepEffects :=
  match fileOnDisk with
  | some f =>
    if filePath = "" then
      { spawns := 1, purchases := 0, deleted := [], handled := [],
        next := .done (.resolved (some filePath)) }
    else
      let integrity := verifyFileIntegrity filePath (some f) meta
      if integrity.isValid = false then
        let handledMsg := "Downloaded file is corrupted: " ++ integrity.errorMessage.getD ""
        if integrity.shouldRetry = some true ∧ rc = 0 then
          { spawns := 1, purchases := 0, deleted := [filePath], handled := [handledMsg],
            next := .retryClose 1 INITIAL_RETRY_DELAY }
        else
          { spawns := 1, purchases := 0, deleted := [filePath], handled := [handledMsg],
            next := .done (.rejected (.integrity
              ("File integrity verification failed: " ++ integrity.errorMessage.getD ""))) }
      else
        let finalPath :=
          if app.appName ≠ "" ∧ app.appVersion ≠ "" then renamedTo.getD filePath
          else filePath
        { spawns := 1, purchases := 0, deleted := [], handled := [],
          next := .done (.resolved (some finalPath)) }
  | none =>
    { spawns := 1, purchases := 0, deleted := [], handled := [],
      next := .done (.resolved (some filePath)) }

/-- Effects of the subprocess stage: spawn failure, stall, process error
event with its TLS retry, or exit routing. -/
def procEffects (app : AppInfo) (inv : Invocation) (rc : Nat) (delay : ℚ) : StepEffects :=
  match inv.proc with
  | .spawnFail msg =>
    { spawns := 1, purchases := 0, deleted := [], handled := [],
      next := .done (.rejected (.spawnError msg)) }
  | .stalled =>
    { spawns := 1, purchases := 0, deleted := [], handled := [],
      next := .done (.rejected (.stalledErr "Download stalled.")) }
  | .errEvent msg =>
    if isTlsError msg = true ∧ rc < MAX_RETRIES then
      { spawns := 1, purchases := 0, deleted := [], handled := [],
        next := .retryErr (rc + 1) (delay * (3 / 2)) }
    else
      { spawns := 1, purchases := 0, deleted := [], handled := [msg],
        next := .done (.rejected (.procError msg)) }
  | .exit code stderr specificError analysis filePath fileOnDisk meta renamedTo =>
    if code ≠ 0 then
      exitFailEffects app inv.purchase rc delay code stderr specificError analysis
    else
      exitOkEffects app rc filePath fileOnDisk meta renamedTo

/-- Single invocation of downloadApp, mirroring the source top to bottom:
prerequisite validation (with its own metadata lookup) on initial attempts
only, the authentication gate, the progress-tracking metadata lookup, then
the subprocess stage. -/
def downloadStep (app : AppInfo) (inv : Invocation) (rc : Nat) (delay : ℚ)
    (optExp : Option Nat) : StepOut :=
  let validation := validateDownloadPrereqs inv.prereq app.bundleId app.appName
    (resolveExpected inv rc optExp) app.appVersion
  if rc = 0 ∧ validation.isValid = false then
    if validation.cancelled = some true then
      { record := mkStepRec inv rc delay optExp (stepFetchesVal rc optExp)
          (some .overwriteDeclined),
        spawns := 0, purchases := 0, deleted := [], handled := [],
        next := .done (.resolved none) }
    else
      { record := mkStepRec inv rc delay optExp (stepFetchesVal rc optExp) none,
        spawns := 0, purchases := 0, deleted := [], handled := [],
        next := .done (.rejected (.validation
          (validation.errorMessage.getD "Prerequisite validation failed"))) }
  else if inv.authOk = false then
    { record := mkStepRec inv rc delay optExp (stepFetchesVal rc optExp)
        (some .authUnavailable),
      spawns := 0, purchases := 0, deleted := [], handled := [],
      next := .done (.resolved none) }
  else
    let eff := procEffects app inv rc delay
    { record := mkStepRec inv rc delay optExp (stepFetchesAll rc optExp) none,
      spawns := eff.spawns, purchases := eff.purchases, deleted := eff.deleted,
      handled := eff.handled, next := eff.next }

/-- Download orchestrator downloadApp. One list element is consumed per
invocation; the recursion of the source on retry becomes recursion on the
remaining environment, with the resolved expected size carried into every
retry. The three retry plumbings differ in how the settlement of the
recursive call reaches the caller, per the Settle documentation. -/
def downloadApp (app : AppInfo) : List Invocation → Nat → ℚ → Option Nat → DlOut
  | [], _, _, _ => DlOut.fuelOut
  | inv :: rest, rc, delay, optExp =>
    let st := downloadStep app inv rc delay optExp
    match st.next with
    | .done res => single st.record st.spawns st.purchases st.deleted st.handled (some res)
    | .retryClose rc2 delay2 =>
      let sub := downloadApp app rest rc2 delay2 st.record.resolvedExpected
      chain st.record st.spawns st.purchases st.deleted st.handled [] sub (closeSettle sub.result)
    | .retryErr rc2 delay2 =>
      let sub := downloadApp app rest rc2 delay2 st.record.resolvedExpected
      chain st.record st.spawns st.purchases st.deleted st.handled [] sub sub.result
    | .retryLicense isAuthErr nameRef genericMsg =>
      let sub := downloadApp app rest 0 INITIAL_RETRY_DELAY st.record.resolvedExpected
      match sub.result with
      | some (.rejected e) =>
        let m := "License purchase failed for free app \"" ++ nameRef ++ "\": " ++ e.message
        if isAuthErr then
          chain st.record st.spawns st.purchases st.deleted st.handled [] sub
            (some (.rejected (.needsLogin m)))
        else
          chain st.record st.spawns st.purchases st.deleted st.handled [m] sub
            (some (.rejected (.download genericMsg)))
      | other =>
        chain st.record st.spawns st.purchases st.deleted st.handled [] sub other

/-! Sample collaborator environments used by the concrete scenarios. -/

/-- Prerequisite environment that validates cleanly: writable directory,
statfs probe unavailable, empty downloads directory, network probe
unavailable (inconclusive, proceed). -/
def okPrereq : PrereqEnv :=
  { writeOk := true, statfsAvail := none, dirFiles := [], confirmOverwrite := true,
    probe := .unavailable }

/-- Classifier output for a transient network failure. -/
def netAnalysis : ErrorAnalysis :=
  { errorType := .network, isAuthError := false, isLicenseRequired := false,
    userMessage := "Network error" }

/-- Classifier output for a throttled request. -/
def rateAnalysis : ErrorAnalysis :=
  { errorType := .rate_limited, isAuthError := false, isLicenseRequired := false,
    userMessage := "Rate limited" }

/-- Classifier output for an unrecognized failure. -/
def unknownAnalysis : ErrorAnalysis :=
  { errorType := .unknown, isAuthError := false, isLicenseRequired := false,
    userMessage := "Download failed" }

/-- Classifier output for a license-required failure. -/
def licenseAnalysis : ErrorAnalysis :=
  { errorType := .license_required, isAuthError := false, isLicenseRequired := true,
    userMessage := "License required" }

/-- Invocation whose subprocess exits nonzero with network markers on
stderr. -/
def netInv : Invocation :=
  { itunesSize := none, prereq := okPrereq, authOk := true,
    proc := .exit 1 "network error from server" "" netAnalysis "" none none none,
    purchase := .returns false }

/-- Invocation whose subprocess exits nonzero with a rate-limit
classification and no network markers. -/
def rateInv : Invocation :=
  { itunesSize := none, prereq := okPrereq, authOk := true,
    proc := .exit 1 "too many requests" "" rateAnalysis "" none none none,
    purchase := .returns false }

/-- Invocation whose subprocess raises a TLS process error event. -/
def tlsErrInv : Invocation :=
  { itunesSize := none, prereq := okPrereq, authOk := true,
    proc := .errEvent "tls: bad record MAC", purchase := .returns false }

/-- Invocation on which the authentication check fails. -/
def authFalseInv : Invocation :=
  { itunesSize := none, prereq := okPrereq, authOk := false,
    proc := .stalled, purchase := .returns false }

/-- Invocation whose subprocess exits nonzero with an unclassified failure
and no network markers. -/
def failInv : Invocation :=
  { itunesSize := none, prereq := okPrereq, authOk := true,
    proc := .exit 1 "server unhappy" "" unknownAnalysis "" none none none,
    purchase := .returns false }

/-- A truncated 50 KB download that is not a readable archive. -/
def smallFile : FileModel := { size := 50 * 1024, zip := .bad "invalid zip" }

/-- Invocation whose subprocess exits cleanly but leaves the truncated
file behind. -/
def corruptInv : Invocation :=
  { itunesSize := none, prereq := okPrereq, authOk := true,
    proc := .exit 0 "" "" unknownAnalysis "/downloads/com.example.app_1_1.0.ipa"
      (some smallFile) none none,
    purchase := .returns false }

/-- Invocation whose subprocess exits nonzero with a license-required
classification and whose purchase step returns false. -/
def licFailInv : Invocation :=
  { itunesSize := none, prereq := okPrereq, authOk := true,
    proc := .exit 1 "license is required" "" licenseAnalysis "" none none none,
    purchase := .returns false }

/-- Invocation like licFailInv but with a successful purchase step. -/
def licOkInv : Invocation :=
  { itunesSize := none, prereq := okPrereq, authOk := true,
    proc := .exit 1 "license is required" "" licenseAnalysis "" none none none,
    purchase := .returns true }

/-- The app of the concrete scenarios. -/
def exApp : AppInfo :=
  { bundleId := "com.example.app", appName := "Example", appVersion := "1.0", price := "0" }

/-- A vendor-reserved app of the concrete scenarios. -/
def appleApp : AppInfo :=
  { bundleId := "com.apple.wallet", appName := "Apple Wallet", appVersion := "1.0", price := "0" }

/-- Polled file sizes of the progress scenario: 100 KB, 600 KB, 1.2 MB and
2 MB against an expected size of 2 MB, in binary units. -/
def c8obs : List (Option Nat) := [some 102400, some 614400, some 1258291, some 2097152]

/-- Whether a run settled with a rejection. -/
def isRejectedOut : Option Settle → Bool
  | some (.rejected _) => true
  | _ => false

/-- Whether a run settled with the null resolution. -/
def isResolvedNullOut : Option Settle → Bool
  | some (.resolved none) => true
  | _ => false

/-- Invocations whose subprocess fails with a network classification: a
nonzero exit whose output passes the stderr and parsed-error substring
checks without a license flag, or a TLS process error event. -/
def netFailInv (inv : Invocation) : Bool :=
  match inv.proc with
  | .exit code stderr se an _ _ _ _ =>
    decide (code ≠ 0) && isNetworkError stderr se && !an.isLicenseRequired
  | .errEvent msg => isTlsError msg
  | _ => false

/-! Theorems. -/

/-- C4: verifyFileIntegrity fails with a retry signal on an absent file, an
undersized file, an unreadable archive, an empty archive, or an archive
missing the Payload application bundle entry or the plist entry; and it
accepts every existing file above the floor whose archive carries both
required entries and whose size is within the five percent band of the
supplied metadata size when one is supplied. -/
theorem claim_C4 (fp : String) (f : FileModel) (meta : Option IpatoolMeta) :
    ((verifyFileIntegrity fp none meta).isValid = false ∧
      (verifyFileIntegrity fp none meta).shouldRetry = some true) ∧
    (f.size < MIN_FILE_SIZE_BYTES →
      (verifyFileIntegrity fp (some f) meta).isValid = false ∧
      (verifyFileIntegrity fp (some f) meta).shouldRetry = some true) ∧
    (∀ emsg, f.zip = .bad emsg →
      (verifyFileIntegrity fp (some f) meta).isValid = false ∧
      (verifyFileIntegrity fp (some f) meta).shouldRetry = some true) ∧
    (f.zip = .entriesOk [] →
      (verifyFileIntegrity fp (some f) meta).isValid = false ∧
      (verifyFileIntegrity fp (some f) meta).shouldRetry = some true) ∧
    (∀ entries, f.zip = .entriesOk entries →
      (entries.any isPayloadAppEntry = false ∨ entries.any isInfoPlistEntry = false) →
      (verifyFileIntegrity fp (some f) meta).isValid = false ∧
      (verifyFileIntegrity fp (some f) meta).shouldRetry = some true) ∧
    (∀ entries, MIN_FILE_SIZE_BYTES < f.size → f.zip = .entriesOk entries →
      entries.any isPayloadAppEntry = true → entries.any isInfoPlistEntry = true →
      (∀ n, meta.bind IpatoolMeta.fileSize = some n → n ≠ 0 →
        |(f.size : ℚ) - (n : ℚ)| ≤ (n : ℚ) * (5 / 100)) →
      (verifyFileIntegrity fp (some f) meta).isValid = true) := by
  refine ⟨⟨rfl, rfl⟩, ?_, ?_, ?_, ?_, ?_⟩
  · intro h
    simp [verifyFileIntegrity, h]
  · intro emsg hz
    by_cases hs : f.size < MIN_FILE_SIZE_BYTES
    · simp [verifyFileIntegrity, hs]
    · simp [verifyFileIntegrity, hs, hz]
  · intro hz
    by_cases hs : f.size < MIN_FILE_SIZE_BYTES
    · simp [verifyFileIntegrity, hs]
    · simp [verifyFileIntegrity, hs, hz]
  · intro entries hz hmiss
    by_cases hs : f.size < MIN_FILE_SIZE_BYTES
    · simp [verifyFileIntegrity, hs]
    · by_cases hlen : entries.length = 0
      · rw [List.length_eq_zero] at hlen
        subst hlen
        simp [verifyFileIntegrity, hs, hz]
      · by_cases hp2 : entries.any isPayloadAppEntry = true
        · have hpl : entries.any isInfoPlistEntry = false := by
            rcases hmiss with h | h
            · rw [hp2] at h; cases h
            · exact h
          simp [verifyFileIntegrity, hs, hz, hlen, hp2, hpl]
        · have hp : entries.any isPayloadAppEntry = false := by
            cases h : entries.any isPayloadAppEntry
            · rfl
            · exact absurd h hp2
          simp [verifyFileIntegrity, hs, hz, hlen, hp]
  · intro entries hlt hz hp hpl htol
    have hs : ¬ f.size < MIN_FILE_SIZE_BYTES := by
      rw [not_lt]
      exact le_of_lt hlt
    have hlen : ¬ entries.length = 0 := by
      intro h0
      rw [List.length_eq_zero] at h0
      subst h0
      simp at hp
    cases meta with
    | none => simp [verifyFileIntegrity, hs, hz, hlen, hp, hpl]
    | some m =>
      cases hfs : m.fileSize with
      | none => simp [verifyFileIntegrity, hs, hz, hlen, hp, hpl, hfs]
      | some n =>
        by_cases hn : n = 0
        · simp [verifyFileIntegrity, hs, hz, hlen, hp, hpl, hfs, hn]
        · have htl := htol n (by simp [hfs]) hn
          simp [verifyFileIntegrity, hs, hz, hlen, hp, hpl, hfs, hn, not_lt.mpr htl]

/-- C4 witness: a 2 MB archive holding a Payload plist entry verifies, and
an absent file fails. -/
theorem claim_C4_witness :
    (verifyFileIntegrity "com.example.app.ipa"
      (some { size := 2 * 1048576, zip := .entriesOk ["Payload/Example.app/Info.plist"] })
      none).isValid = true ∧
    (verifyFileIntegrity "com.example.app.ipa" none none).isValid = false := by
  constructor
  · exact (claim_C4 "com.example.app.ipa"
      { size := 2 * 1048576, zip := .entriesOk ["Payload/Example.app/Info.plist"] }
      none).2.2.2.2.2 ["Payload/Example.app/Info.plist"]
      (by norm_num [MIN_FILE_SIZE_BYTES]) rfl
      (by simp [isPayloadAppEntry, strStartsWith, strContains, containsFrom, List.isPrefixOf])
      (by simp [isInfoPlistEntry, strContains, containsFrom, List.isPrefixOf])
      (by intro n hn; cases hn)
  · exact (claim_C4 "com.example.app.ipa"
      { size := 2 * 1048576, zip := .entriesOk ["Payload/Example.app/Info.plist"] } none).1.1

/-- One progress tick either leaves the state alone and emits nothing, or
emits the capped progress fraction of the observed size, strictly above the
last reported fraction. -/
lemma progressTick_cases (expected : Nat) (st : ProgressState) (o : Option Nat) :
    progressTick expected st o = (st, none) ∨
    ∃ c, o = some c ∧
      st.lastProgress < min ((c : ℚ) / (expected : ℚ)) 1 ∧
      progressTick expected st o =
        ({ lastProgress := min ((c : ℚ) / (expected : ℚ)) 1, lastReportedSize := c },
          some (min ((c : ℚ) / (expected : ℚ)) 1)) := by
  by_cases he : expected = 0
  · left
    simp [progressTick, he]
  cases o with
  | none =>
    left
    simp [progressTick, he]
  | some c =>
    by_cases hrep :
        (decide (st.lastReportedSize + 512 * 1024 < c) || decide (c = expected)) = true
    · by_cases hlt : st.lastProgress < min ((c : ℚ) / (expected : ℚ)) 1
      · right
        exact ⟨c, rfl, hlt, by simp [progressTick, he, hrep, hlt]⟩
      · left
        simp [progressTick, he, hrep, hlt]
    · left
      simp only [Bool.or_eq_true, decide_eq_true_eq, not_or] at hrep
      simp [progressTick, he, hrep.1, hrep.2]

/-- Emissions of the progress loop are strictly increasing, start strictly
above the last reported fraction, and stay within the unit interval. -/
lemma progressEmits_strict (expected : Nat) :
    ∀ (obs : List (Option Nat)) (st : ProgressState),
      (∀ q ∈ progressEmits expected st obs, st.lastProgress < q ∧ 0 ≤ q ∧ q ≤ 1) ∧
      List.Chain' (· < ·) (progressEmits expected st obs) := by
  intro obs
  induction obs with
  | nil =>
    intro st
    constructor
    · intro q hq
      simp [progressEmits] at hq
    · simp [progressEmits]
  | cons o rest ih =>
    intro st
    rcases progressTick_cases expected st o with h | ⟨c, ho, hlt, h⟩
    · have heq : progressEmits expected st (o :: rest) = progressEmits expected st rest := by
        simp [progressEmits, h]
      rw [heq]
      exact ih st
    · have heq : progressEmits expected st (o :: rest) =
          min ((c : ℚ) / (expected : ℚ)) 1 ::
            progressEmits expected
              { lastProgress := min ((c : ℚ) / (expected : ℚ)) 1, lastReportedSize := c } rest := by
        simp [progressEmits, h]
      obtain ⟨ihall, ihchain⟩ :=
        ih { lastProgress := min ((c : ℚ) / (expected : ℚ)) 1, lastReportedSize := c }
      rw [heq]
      constructor
      · intro q hq
        rcases List.mem_cons.mp hq with rfl | hq
        · refine ⟨hlt, ?_, min_le_right _ _⟩
          exact le_min (div_nonneg (Nat.cast_nonneg c) (Nat.cast_nonneg expected)) zero_le_one
        · obtain ⟨h1, h2, h3⟩ := ihall q hq
          exact ⟨lt_trans hlt h1, h2, h3⟩
      · cases hpe : progressEmits expected
            { lastProgress := min ((c : ℚ) / (expected : ℚ)) 1, lastReportedSize := c } rest with
        | nil => simp
        | cons r rs =>
          rw [List.chain'_cons]
          constructor
          · exact (ihall r (by rw [hpe]; exact List.mem_cons_self r rs)).1
          · rw [← hpe]
            exact ihchain

/-- C9: within one attempt the emitted progress values are non-decreasing
and lie in the unit interval; the attempt starts with lastProgress zero and
a value is emitted only after the comparison against lastProgress. -/
theorem claim_C9 (expected : Nat) (obs : List (Option Nat)) :
    List.Chain' (· ≤ ·) (progressRun expected obs) ∧
    (progressRun expected obs).Forall (fun q => 0 ≤ q ∧ q ≤ 1) := by
  obtain ⟨hall, hchain⟩ :=
    progressEmits_strict expected obs { lastProgress := 0, lastReportedSize := 0 }
  constructor
  · exact List.Chain'.imp (fun a b h => le_of_lt h) hchain
  · rw [List.forall_iff_forall_mem]
    intro q hq
    obtain ⟨h1, h2, h3⟩ := hall q hq
    exact ⟨h2, h3⟩

/-- C8 counterexample: on polled sizes of 100 KB, 600 KB, 1.2 MB and 2 MB
against an expected 2 MB, the reporting logic emits three progress values,
not the two the claim predicts, because the 1.2 MB tick again exceeds the
512 KB growth threshold over the 600 KB report. -/
theorem claim_C8_counterexample :
    (progressRun 2097152 c8obs).length = 3 ∧
    progressRun 2097152 c8obs ≠ [3 / 10, 1] := by
  have h : progressRun 2097152 c8obs = [614400 / 2097152, 1258291 / 2097152, 1] := by
    simp [progressRun, progressEmits, progressTick, c8obs]
    norm_num
  rw [h]
  constructor
  · rfl
  · intro hcontra
    have := congrArg List.length hcontra
    simp at this

/-- C8 amended: the scenario emits exactly three callbacks, at the 600 KB,
1.2 MB and 2 MB ticks, with values 600 KB over 2 MB, 1.2 MB over 2 MB and
one. -/
theorem claim_C8_amended :
    progressRun 2097152 c8obs = [614400 / 2097152, 1258291 / 2097152, 1] := by
  simp [progressRun, progressEmits, progressTick, c8obs]
  norm_num

/-- The early-return loop of the purchase step agrees with an any-scan over
the candidate lines. -/
lemma purchaseLoop_any (parse : String → Option JsonLine) :
    ∀ lines : List String,
      (match lines.findSome? (fun l =>
        match parse l with
        | some obj => if purchaseLineSuccess obj then some true else none
        | none => none) with
       | some b => b
       | none => false) =
      lines.any (fun l =>
        match parse l with
        | some obj => purchaseLineSuccess obj
        | none => false) := by
  intro lines
  induction lines with
  | nil => rfl
  | cons l rest ih =>
    simp only [List.findSome?, List.any_cons]
    cases hp : parse l with
    | none =>
      simp only [hp]
      rw [← ih]
      simp
    | some obj =>
      by_cases hs : purchaseLineSuccess obj = true
      · simp [hp, hs]
      · simp only [hp, hs, if_false, Bool.false_or]
        rw [← ih]
        simp [hs]

/-- C10: the purchase step always settles with a boolean, false on every
error path, true exactly when a success marker is present in the combined
output by quick substring match or by a parsed JSON candidate line. -/
theorem claim_C10 (sp : PurchaseSpawn) (parse : String → Option JsonLine) :
    purchaseApp sp parse = purchaseSuccessClaim sp parse := by
  cases sp with
  | err m => rfl
  | ok o e =>
    simp only [purchaseApp, purchaseSuccessClaim]
    by_cases hq :
        (strContains (strToLower (o ++ "\n" ++ e)) "\"success\": true" ||
         strContains (strToLower (o ++ "\n" ++ e)) "license obtained" ||
         strContains (strToLower (o ++ "\n" ++ e)) "already purchased" ||
         strContains (strToLower (o ++ "\n" ++ e)) "already owned") = true
    · simp [hq]
    · simp only [hq, if_false]
      rw [purchaseLoop_any parse (jsonCandidateLines (o ++ "\n" ++ e))]
      simp [hq]

/-- The subprocess stage spawns exactly once, purchases at most once, and
never continues with the null resolution. -/
lemma exitFailEffects_facts (app : AppInfo) (purchase : PurchaseOutcome) (rc : Nat)
    (delay : ℚ) (code : ℤ) (stderr specificError : String) (analysis : ErrorAnalysis) :
    (exitFailEffects app purchase rc delay code stderr specificError analysis).spawns = 1 ∧
    (exitFailEffects app purchase rc delay code stderr specificError analysis).purchases ≤ 1 ∧
    (exitFailEffects app purchase rc delay code stderr specificError analysis).next ≠
      .done (.resolved none) := by
  simp only [exitFailEffects]
  repeat' split
  all_goals simp

/-- The clean-exit stage spawns exactly once, purchases never, and never
continues with the null resolution. -/
lemma exitOkEffects_facts (app : AppInfo) (rc : Nat) (filePath : String)
    (fileOnDisk : Option FileModel) (meta : Option IpatoolMeta) (renamedTo : Option String) :
    (exitOkEffects app rc filePath fileOnDisk meta renamedTo).spawns = 1 ∧
    (exitOkEffects app rc filePath fileOnDisk meta renamedTo).purchases ≤ 1 ∧
    (exitOkEffects app rc filePath fileOnDisk meta renamedTo).next ≠
      .done (.resolved none) := by
  simp only [exitOkEffects]
  repeat' split
  all_goals simp

/-- The subprocess stage of any invocation spawns exactly once, purchases at
most once, and never continues with the null resolution. -/
lemma procEffects_facts (app : AppInfo) (inv : Invocation) (rc : Nat) (delay : ℚ) :
    (procEffects app inv rc delay).spawns = 1 ∧
    (procEffects app inv rc delay).purchases ≤ 1 ∧
    (procEffects app inv rc delay).next ≠ .done (.resolved none) := by
  cases hproc : inv.proc with
  | spawnFail msg => simp [procEffects, hproc]
  | stalled => simp [procEffects, hproc]
  | errEvent msg =>
    simp only [procEffects, hproc]
    split
    · simp
    · simp
  | exit code stderr specificError analysis filePath fileOnDisk meta renamedTo =>
    simp only [procEffects, hproc]
    split
    · exact exitFailEffects_facts app inv.purchase rc delay code stderr specificError analysis
    · exact exitOkEffects_facts app rc filePath fileOnDisk meta renamedTo

/-- The fetch counters are zero away from initial attempts. -/
lemma stepFetches_zero (rc : Nat) (optExp : Option Nat) :
    (stepFetchesVal rc optExp = 0 ∨ rc = 0) ∧ (stepFetchesAll rc optExp = 0 ∨ rc = 0) := by
  by_cases hrc : rc = 0
  · exact ⟨Or.inr hrc, Or.inr hrc⟩
  · exact ⟨Or.inl (by simp [stepFetchesVal, hrc]),
      Or.inl (by simp [stepFetchesAll, stepFetchesVal, hrc])⟩

/-- Every branch of one invocation records the parameters it was entered
with, resolves the expected size by the shared rule, fetches metadata only
on initial attempts, and spawns and purchases at most once. -/
lemma downloadStep_record (app : AppInfo) (inv : Invocation) (rc : Nat) (delay : ℚ)
    (optExp : Option Nat) :
    (downloadStep app inv rc delay optExp).record.rc = rc ∧
    (downloadStep app inv rc delay optExp).record.delay = delay ∧
    (downloadStep app inv rc delay optExp).record.optExpected = optExp ∧
    (downloadStep app inv rc delay optExp).record.resolvedExpected =
      resolveExpected inv rc optExp ∧
    (downloadStep app inv rc delay optExp).record.validated = decide (rc = 0) ∧
    ((downloadStep app inv rc delay optExp).record.fetches = 0 ∨ rc = 0) ∧
    (downloadStep app inv rc delay optExp).spawns ≤ 1 ∧
    (downloadStep app inv rc delay optExp).purchases ≤ 1 := by
  obtain ⟨hv, ha⟩ := stepFetches_zero rc optExp
  obtain ⟨hs, hp, _⟩ := procEffects_facts app inv rc delay
  simp only [downloadStep]
  split
  · split
    · exact ⟨rfl, rfl, rfl, rfl, rfl, hv, by simp, by simp⟩
    · exact ⟨rfl, rfl, rfl, rfl, rfl, hv, by simp, by simp⟩
  · split
    · exact ⟨rfl, rfl, rfl, rfl, rfl, hv, by simp, by simp⟩
    · exact ⟨rfl, rfl, rfl, rfl, rfl, ha, by simp [hs], by simpa using hp⟩

/-- An invocation settles by itself with the null resolution exactly when
its record carries a null-skip reason. -/
lemma downloadStep_nullSkip (app : AppInfo) (inv : Invocation) (rc : Nat) (delay : ℚ)
    (optExp : Option Nat) :
    ((downloadStep app inv rc delay optExp).next = .done (.resolved none)) ↔
    ((downloadStep app inv rc delay optExp).record.nullSkip.isSome = true) := by
  obtain ⟨_, _, hn⟩ := procEffects_facts app inv rc delay
  simp only [downloadStep]
  split
  · split
    · simp [mkStepRec]
    · simp [mkStepRec]
  · split
    · simp [mkStepRec]
    · simp [mkStepRec, hn]

/-- Runner equation for an invocation that settles by itself. -/
lemma downloadApp_cons_done (app : AppInfo) (inv : Invocation) (rest : List Invocation)
    (rc : Nat) (delay : ℚ) (optExp : Option Nat) (res : Settle)
    (hnx : (downloadStep app inv rc delay optExp).next = .done res) :
    downloadApp app (inv :: rest) rc delay optExp =
      single (downloadStep app inv rc delay optExp).record
        (downloadStep app inv rc delay optExp).spawns
        (downloadStep app inv rc delay optExp).purchases
        (downloadStep app inv rc delay optExp).deleted
        (downloadStep app inv rc delay optExp).handled (some res) := by
  simp only [downloadApp, hnx]

/-- Runner equation for a close-handler retry. -/
lemma downloadApp_cons_retryClose (app : AppInfo) (inv : Invocation) (rest : List Invocation)
    (rc : Nat) (delay : ℚ) (optExp : Option Nat) (rc2 : Nat) (d2 : ℚ)
    (hnx : (downloadStep app inv rc delay optExp).next = .retryClose rc2 d2) :
    downloadApp app (inv :: rest) rc delay optExp =
      chain (downloadStep app inv rc delay optExp).record
        (downloadStep app inv rc delay optExp).spawns
        (downloadStep app inv rc delay optExp).purchases
        (downloadStep app inv rc delay optExp).deleted
        (downloadStep app inv rc delay optExp).handled []
        (downloadApp app rest rc2 d2 (downloadStep app inv rc delay optExp).record.resolvedExpected)
        (closeSettle (downloadApp app rest rc2 d2
          (downloadStep app inv rc delay optExp).record.resolvedExpected).result) := by
  simp only [downloadApp, hnx]

/-- Runner equation for an error-handler retry. -/
lemma downloadApp_cons_retryErr (app : AppInfo) (inv : Invocation) (rest : List Invocation)
    (rc : Nat) (delay : ℚ) (optExp : Option Nat) (rc2 : Nat) (d2 : ℚ)
    (hnx : (downloadStep app inv rc delay optExp).next = .retryErr rc2 d2) :
    downloadApp app (inv :: rest) rc delay optExp =
      chain (downloadStep app inv rc delay optExp).record
        (downloadStep app inv rc delay optExp).spawns
        (downloadStep app inv rc delay optExp).purchases
        (downloadStep app inv rc delay optExp).deleted
        (downloadStep app inv rc delay optExp).handled []
        (downloadApp app rest rc2 d2 (downloadStep app inv rc delay optExp).record.resolvedExpected)
        (downloadApp app rest rc2 d2
          (downloadStep app inv rc delay optExp).record.resolvedExpected).result := by
  simp only [downloadApp, hnx]

/-- In the license retry the instrumentation always chains the same record
and recursive run, whichever way the retry settled. -/
lemma downloadApp_cons_license_stats (app : AppInfo) (inv : Invocation) (rest : List Invocation)
    (rc : Nat) (delay : ℚ) (optExp : Option Nat) (a : Bool) (n g : String)
    (hnx : (downloadStep app inv rc delay optExp).next = .retryLicense a n g) :
    (downloadApp app (inv :: rest) rc delay optExp).trace =
      (downloadStep app inv rc delay optExp).record ::
        (downloadApp app rest 0 INITIAL_RETRY_DELAY
          (downloadStep app inv rc delay optExp).record.resolvedExpected).trace ∧
    (downloadApp app (inv :: rest) rc delay optExp).spawns =
      (downloadStep app inv rc delay optExp).spawns +
        (downloadApp app rest 0 INITIAL_RETRY_DELAY
          (downloadStep app inv rc delay optExp).record.resolvedExpected).spawns ∧
    (downloadApp app (inv :: rest) rc delay optExp).purchases =
      (downloadStep app inv rc delay optExp).purchases +
        (downloadApp app rest 0 INITIAL_RETRY_DELAY
          (downloadStep app inv rc delay optExp).record.resolvedExpected).purchases := by
  simp only [downloadApp, hnx]
  rcases hres : (downloadApp app rest 0 INITIAL_RETRY_DELAY
      (downloadStep app inv rc delay optExp).record.resolvedExpected).result with _ | s
  · simp [chain]
  · cases s with
    | resolved v => simp [chain]
    | rejected e => split <;> (try split) <;> simp_all [chain]
    | hungAfter e => simp [chain]

/-- In the license retry, a settlement of the recursive run that is not a
rejection propagates unchanged. -/
lemma downloadApp_cons_license_other (app : AppInfo) (inv : Invocation) (rest : List Invocation)
    (rc : Nat) (delay : ℚ) (optExp : Option Nat) (a : Bool) (n g : String)
    (hnx : (downloadStep app inv rc delay optExp).next = .retryLicense a n g)
    (hres : ∀ e, (downloadApp app rest 0 INITIAL_RETRY_DELAY
      (downloadStep app inv rc delay optExp).record.resolvedExpected).result ≠
        some (.rejected e)) :
    (downloadApp app (inv :: rest) rc delay optExp).result =
      (downloadApp app rest 0 INITIAL_RETRY_DELAY
        (downloadStep app inv rc delay optExp).record.resolvedExpected).result := by
  simp only [downloadApp, hnx]
  rcases hr : (downloadApp app rest 0 INITIAL_RETRY_DELAY
      (downloadStep app inv rc delay optExp).record.resolvedExpected).result with _ | s
  · simp [chain]
  · cases s with
    | resolved v => simp [chain]
    | rejected e => exact absurd hr (hres e)
    | hungAfter e => simp [chain]

/-- In the license retry, a rejection of the recursive run is caught and
rerouted as a terminal rejection of the invocation. -/
lemma downloadApp_cons_license_rej (app : AppInfo) (inv : Invocation) (rest : List Invocation)
    (rc : Nat) (delay : ℚ) (optExp : Option Nat) (a : Bool) (n g : String) (e : DlError)
    (hnx : (downloadStep app inv rc delay optExp).next = .retryLicense a n g)
    (hres : (downloadApp app rest 0 INITIAL_RETRY_DELAY
      (downloadStep app inv rc delay optExp).record.resolvedExpected).result =
        some (.rejected e)) :
    (downloadApp app (inv :: rest) rc delay optExp).result =
      (if a = true then
        some (.rejected (.needsLogin
          ("License purchase failed for free app \"" ++ n ++ "\": " ++ e.message)))
      else some (.rejected (.download g))) := by
  cases a with
  | false =>
    simp only [downloadApp, hnx, hres]
    simp [chain]
  | true =>
    simp only [downloadApp, hnx, hres]
    simp [chain]

/-- The trace of a run on a nonempty environment starts with the record of
its first invocation. -/
lemma downloadApp_trace_cons (app : AppInfo) (inv : Invocation) (rest : List Invocation)
    (rc : Nat) (delay : ℚ) (optExp : Option Nat) :
    ∃ t, (downloadApp app (inv :: rest) rc delay optExp).trace =
      (downloadStep app inv rc delay optExp).record :: t := by
  cases hnx : (downloadStep app inv rc delay optExp).next with
  | done res =>
    rw [downloadApp_cons_done app inv rest rc delay optExp res hnx]
    exact ⟨[], rfl⟩
  | retryClose rc2 d2 =>
    rw [downloadApp_cons_retryClose app inv rest rc delay optExp rc2 d2 hnx]
    exact ⟨_, rfl⟩
  | retryErr rc2 d2 =>
    rw [downloadApp_cons_retryErr app inv rest rc delay optExp rc2 d2 hnx]
    exact ⟨_, rfl⟩
  | retryLicense a n g =>
    exact ⟨_, (downloadApp_cons_license_stats app inv rest rc delay optExp a n g hnx).1⟩

/-- The head record of a run on a nonempty environment carries the run
parameters. -/
lemma downloadApp_head (app : AppInfo) (inv : Invocation) (rest : List Invocation)
    (rc : Nat) (delay : ℚ) (optExp : Option Nat) (r : InvRecord)
    (hr : (downloadApp app (inv :: rest) rc delay optExp).trace.head? = some r) :
    r.rc = rc ∧ r.delay = delay ∧ r.optExpected = optExp ∧
    r.resolvedExpected = resolveExpected inv rc optExp := by
  obtain ⟨t, ht⟩ := downloadApp_trace_cons app inv rest rc delay optExp
  rw [ht] at hr
  simp only [List.head?_cons, Option.some.injEq] at hr
  obtain ⟨h1, h2, h3, h4, _⟩ := downloadStep_record app inv rc delay optExp
  rw [← hr]
  exact ⟨h1, h2, h3, h4⟩

/-- C7: on every recorded invocation, prerequisite validation ran exactly
when the retry count was zero and metadata lookups happened only at retry
count zero; and each invocation entered the run with the expected size the
previous invocation resolved, so retries carry the expected size forward
instead of re-fetching it. -/
theorem claim_C7 (app : AppInfo) (env : List Invocation) (rc : Nat) (delay : ℚ)
    (optExp : Option Nat) :
    (downloadApp app env rc delay optExp).trace.Forall
      (fun r => r.validated = decide (r.rc = 0) ∧ (r.fetches = 0 ∨ r.rc = 0)) ∧
    List.Chain' (fun a b => b.optExpected = a.resolvedExpected)
      (downloadApp app env rc delay optExp).trace := by
  induction env generalizing rc delay optExp with
  | nil => simp [downloadApp, DlOut.fuelOut]
  | cons inv rest ih =>
    obtain ⟨h1, _, _, h4, h5, h6, _, _⟩ := downloadStep_record app inv rc delay optExp
    have hrecP : (downloadStep app inv rc delay optExp).record.validated =
        decide ((downloadStep app inv rc delay optExp).record.rc = 0) ∧
        ((downloadStep app inv rc delay optExp).record.fetches = 0 ∨
          (downloadStep app inv rc delay optExp).record.rc = 0) := by
      rw [h1, h5]
      exact ⟨rfl, h6⟩
    have main : ∀ rc2 d2,
        ((downloadStep app inv rc delay optExp).record ::
          (downloadApp app rest rc2 d2
            (downloadStep app inv rc delay optExp).record.resolvedExpected).trace).Forall
          (fun r => r.validated = decide (r.rc = 0) ∧ (r.fetches = 0 ∨ r.rc = 0)) ∧
        List.Chain' (fun a b => b.optExpected = a.resolvedExpected)
          ((downloadStep app inv rc delay optExp).record ::
            (downloadApp app rest rc2 d2
              (downloadStep app inv rc delay optExp).record.resolvedExpected).trace) := by
      intro rc2 d2
      constructor
      · rw [List.forall_cons]
        exact ⟨hrecP, (ih rc2 d2 _).1⟩
      · rw [List.chain'_cons']
        refine ⟨?_, (ih rc2 d2 _).2⟩
        intro b hb
        cases rest with
        | nil => simp [downloadApp, DlOut.fuelOut] at hb
        | cons i2 r2 =>
          obtain ⟨_, _, hOE, _⟩ := downloadApp_head app i2 r2 rc2 d2 _ b hb
          rw [hOE, h4]
    cases hnx : (downloadStep app inv rc delay optExp).next with
    | done res =>
      rw [downloadApp_cons_done app inv rest rc delay optExp res hnx]
      constructor
      · simp only [single, List.forall_cons]
        exact ⟨hrecP, trivial⟩
      · simp [single]
    | retryClose rc2 d2 =>
      rw [downloadApp_cons_retryClose app inv rest rc delay optExp rc2 d2 hnx]
      simpa [chain] using main rc2 d2
    | retryErr rc2 d2 =>
      rw [downloadApp_cons_retryErr app inv rest rc delay optExp rc2 d2 hnx]
      simpa [chain] using main rc2 d2
    | retryLicense a n g =>
      have htr := (downloadApp_cons_license_stats app inv rest rc delay optExp a n g hnx).1
      rw [htr]
      exact main 0 INITIAL_RETRY_DELAY

/-- The close-handler plumbing turns a retry rejection into an unsettled
promise; it maps nothing else to the null resolution. -/
lemma closeSettle_resolved_none (o : Option Settle) :
    closeSettle o = some (.resolved none) ↔ o = some (.resolved none) := by
  cases o with
  | none => simp [closeSettle]
  | some s => cases s <;> simp [closeSettle]

/-- C3 amended: a run resolves to null exactly when some invocation in its
trace skipped deliberately, that is declined the overwrite confirmation or
failed the authentication gate. -/
theorem claim_C3_amended (app : AppInfo) (env : List Invocation) (rc : Nat) (delay : ℚ)
    (optExp : Option Nat) :
    ((downloadApp app env rc delay optExp).result = some (.resolved none)) ↔
    ((downloadApp app env rc delay optExp).trace.any (fun r => r.nullSkip.isSome) = true) := by
  induction env generalizing rc delay optExp with
  | nil => simp [downloadApp, DlOut.fuelOut]
  | cons inv rest ih =>
    have hnsk := downloadStep_nullSkip app inv rc delay optExp
    cases hnx : (downloadStep app inv rc delay optExp).next with
    | done res =>
      rw [downloadApp_cons_done app inv rest rc delay optExp res hnx]
      rw [hnx] at hnsk
      simp only [StepNext.done.injEq] at hnsk
      simp only [single, List.any_cons, List.any_nil, Bool.or_false, Option.some.injEq]
      exact hnsk
    | retryClose rc2 d2 =>
      have hns : (downloadStep app inv rc delay optExp).record.nullSkip.isSome = false := by
        cases h : (downloadStep app inv rc delay optExp).record.nullSkip.isSome
        · rfl
        · exact absurd (hnsk.mpr h) (by rw [hnx]; simp)
      rw [downloadApp_cons_retryClose app inv rest rc delay optExp rc2 d2 hnx]
      simp only [chain, List.any_cons, hns, Bool.false_or]
      rw [closeSettle_resolved_none]
      exact ih rc2 d2 _
    | retryErr rc2 d2 =>
      have hns : (downloadStep app inv rc delay optExp).record.nullSkip.isSome = false := by
        cases h : (downloadStep app inv rc delay optExp).record.nullSkip.isSome
        · rfl
        · exact absurd (hnsk.mpr h) (by rw [hnx]; simp)
      rw [downloadApp_cons_retryErr app inv rest rc delay optExp rc2 d2 hnx]
      simp only [chain, List.any_cons, hns, Bool.false_or]
      exact ih rc2 d2 _
    | retryLicense a n g =>
      have hns : (downloadStep app inv rc delay optExp).record.nullSkip.isSome = false := by
        cases h : (downloadStep app inv rc delay optExp).record.nullSkip.isSome
        · rfl
        · exact absurd (hnsk.mpr h) (by rw [hnx]; simp)
      have htr := (downloadApp_cons_license_stats app inv rest rc delay optExp a n g hnx).1
      by_cases hrej : ∃ e, (downloadApp app rest 0 INITIAL_RETRY_DELAY
          (downloadStep app inv rc delay optExp).record.resolvedExpected).result =
            some (.rejected e)
      · obtain ⟨e, he⟩ := hrej
        have hres := downloadApp_cons_license_rej app inv rest rc delay optExp a n g e hnx he
        have hL : ¬ ((downloadApp app (inv :: rest) rc delay optExp).result =
            some (.resolved none)) := by
          rw [hres]
          split <;> simp
        have hsub : (downloadApp app rest 0 INITIAL_RETRY_DELAY
            (downloadStep app inv rc delay optExp).record.resolvedExpected).trace.any
              (fun r => r.nullSkip.isSome) = false := by
          cases hsa : (downloadApp app rest 0 INITIAL_RETRY_DELAY
              (downloadStep app inv rc delay optExp).record.resolvedExpected).trace.any
                (fun r => r.nullSkip.isSome)
          · rfl
          · have hcontra := (ih 0 INITIAL_RETRY_DELAY _).mpr hsa
            rw [he] at hcontra
            simp at hcontra
        refine iff_of_false hL ?_
        rw [htr]
        simp [hns, hsub]
      · push_neg at hrej
        have hres := downloadApp_cons_license_other app inv rest rc delay optExp a n g hnx hrej
        rw [hres, htr]
        simp only [List.any_cons, hns, Bool.false_or]
        exact ih 0 INITIAL_RETRY_DELAY _

/-- C3 counterexample: a network failure followed by an unclassified failure
leaves the original promise unsettled: the second attempt rejects, the close
handler of the first attempt awaited it without a catch, and the genuine
failure is surfaced neither as a rejection nor as the null resolution. -/
theorem claim_C3_counterexample :
    (downloadApp exApp [netInv, failInv] 0 2000 none).result
      = some (.hungAfter (.download "Process exited with code 1")) ∧
    isRejectedOut (downloadApp exApp [netInv, failInv] 0 2000 none).result = false ∧
    isResolvedNullOut (downloadApp exApp [netInv, failInv] 0 2000 none).result = false := by
  have h : (downloadApp exApp [netInv, failInv] 0 2000 none).result
      = some (.hungAfter (.download "Process exited with code 1")) := rfl
  exact ⟨h, by rw [h]; rfl, by rw [h]; rfl⟩

/-- On a nonzero exit with network markers and no license flag, the close
handler retries with the capped backoff while budget remains and otherwise
terminates with a rejection. -/
lemma exitFailEffects_network (app : AppInfo) (purchase : PurchaseOutcome) (rc : Nat)
    (delay : ℚ) (code : ℤ) (stderr se : String) (an : ErrorAnalysis)
    (hnet : isNetworkError stderr se = true) (hlic : an.isLicenseRequired = false) :
    (rc < MAX_RETRIES ∧ (exitFailEffects app purchase rc delay code stderr se an).next =
        .retryClose (rc + 1) (min (delay * (3 / 2)) MAX_RETRY_DELAY)) ∨
    (¬ rc < MAX_RETRIES ∧ ∃ er, (exitFailEffects app purchase rc delay code stderr se an).next =
        .done (.rejected er)) := by
  by_cases hrc : rc < MAX_RETRIES
  · left
    refine ⟨hrc, ?_⟩
    simp [exitFailEffects, hnet, hrc]
  · right
    refine ⟨hrc, ?_⟩
    simp only [exitFailEffects]
    rw [if_neg (fun h => hrc h.2), if_neg (fun h => hrc h.2), if_neg (fun h => hrc h.2),
      if_neg (by simp [hlic])]
    split
    · exact ⟨_, rfl⟩
    · exact ⟨_, rfl⟩

/-- On a TLS process error event, the error handler retries with the
uncapped backoff while budget remains and otherwise terminates with the
process error rejection. -/
lemma procEffects_errEvent (app : AppInfo) (inv : Invocation) (rc : Nat) (delay : ℚ)
    (msg : String) (hproc : inv.proc = .errEvent msg) (htls : isTlsError msg = true) :
    (rc < MAX_RETRIES ∧ (procEffects app inv rc delay).next =
        .retryErr (rc + 1) (delay * (3 / 2))) ∨
    (¬ rc < MAX_RETRIES ∧ (procEffects app inv rc delay).next =
        .done (.rejected (.procError msg))) := by
  by_cases hrc : rc < MAX_RETRIES
  · left
    exact ⟨hrc, by simp [procEffects, hproc, htls, hrc]⟩
  · right
    exact ⟨hrc, by simp [procEffects, hproc, htls, hrc]⟩

/-- When the authentication gate passes and prerequisite validation cannot
fail, an invocation reaches the subprocess stage and takes its effects. -/
lemma downloadStep_main (app : AppInfo) (inv : Invocation) (rc : Nat) (delay : ℚ)
    (optExp : Option Nat) (hauth : inv.authOk = true)
    (hval : rc = 0 → (validateDownloadPrereqs inv.prereq app.bundleId app.appName
      (resolveExpected inv rc optExp) app.appVersion).isValid = true) :
    downloadStep app inv rc delay optExp =
      { record := mkStepRec inv rc delay optExp (stepFetchesAll rc optExp) none,
        spawns := (procEffects app inv rc delay).spawns,
        purchases := (procEffects app inv rc delay).purchases,
        deleted := (procEffects app inv rc delay).deleted,
        handled := (procEffects app inv rc delay).handled,
        next := (procEffects app inv rc delay).next } := by
  have h1 : ¬ (rc = 0 ∧ (validateDownloadPrereqs inv.prereq app.bundleId app.appName
      (resolveExpected inv rc optExp) app.appVersion).isValid = false) := by
    rintro ⟨h0, hbad⟩
    rw [hval h0] at hbad
    cases hbad
  rw [downloadStep]
  rw [if_neg h1, if_neg (by simp [hauth])]

/-- In an all-network-failure environment every invocation either settles by
itself or retries with an incremented retry count under the retry guard. -/
lemma downloadStep_netFail_shape (app : AppInfo) (inv : Invocation) (rc : Nat) (delay : ℚ)
    (optExp : Option Nat) (h : netFailInv inv = true) :
    (∃ res, (downloadStep app inv rc delay optExp).next = .done res) ∨
    (rc < MAX_RETRIES ∧
      ((downloadStep app inv rc delay optExp).next =
          .retryClose (rc + 1) (min (delay * (3 / 2)) MAX_RETRY_DELAY) ∨
        (downloadStep app inv rc delay optExp).next = .retryErr (rc + 1) (delay * (3 / 2)))) := by
  simp only [downloadStep]
  split
  · split
    · exact Or.inl ⟨_, rfl⟩
    · exact Or.inl ⟨_, rfl⟩
  · split
    · exact Or.inl ⟨_, rfl⟩
    · show (∃ res, (procEffects app inv rc delay).next = .done res) ∨ _
      cases hproc : inv.proc with
      | spawnFail msg => simp [netFailInv, hproc] at h
      | stalled => simp [netFailInv, hproc] at h
      | errEvent msg =>
        have htls : isTlsError msg = true := by simpa [netFailInv, hproc] using h
        rcases procEffects_errEvent app inv rc delay msg hproc htls with ⟨hrc, hn⟩ | ⟨_, hn⟩
        · exact Or.inr ⟨hrc, Or.inr hn⟩
        · exact Or.inl ⟨_, hn⟩
      | exit code stderr se an fp fm mt rn =>
        have hfacts : (code ≠ 0 ∧ isNetworkError stderr se = true) ∧
            an.isLicenseRequired = false := by
          simpa [netFailInv, hproc] using h
        have hred : (procEffects app inv rc delay).next =
            (exitFailEffects app inv.purchase rc delay code stderr se an).next := by
          simp [procEffects, hproc, hfacts.1.1]
        rcases exitFailEffects_network app inv.purchase rc delay code stderr se an
            hfacts.1.2 hfacts.2 with ⟨hrc, hn⟩ | ⟨_, ⟨er, hn⟩⟩
        · exact Or.inr ⟨hrc, Or.inl (hred.trans hn)⟩
        · exact Or.inl ⟨_, hred.trans hn⟩

/-- An all-network-failure environment spawns at most one subprocess per
remaining retry budget. -/
lemma downloadApp_netFail_bound (app : AppInfo) :
    ∀ env : List Invocation, (∀ inv ∈ env, netFailInv inv = true) →
    ∀ (rc : Nat) (delay : ℚ) (optExp : Option Nat),
      (downloadApp app env rc delay optExp).spawns ≤ (1 + MAX_RETRIES) - min rc MAX_RETRIES := by
  intro env
  induction env with
  | nil =>
    intro _ rc delay optExp
    simp [downloadApp, DlOut.fuelOut]
  | cons inv rest ih =>
    intro hall rc delay optExp
    have hinv := hall inv (List.mem_cons_self inv rest)
    have hrest : ∀ i ∈ rest, netFailInv i = true :=
      fun i hi => hall i (List.mem_cons_of_mem inv hi)
    obtain ⟨_, _, _, _, _, _, hsp, _⟩ := downloadStep_record app inv rc delay optExp
    have hbound1 : (1 : Nat) ≤ (1 + MAX_RETRIES) - min rc MAX_RETRIES := by
      simp only [MAX_RETRIES]
      omega
    rcases downloadStep_netFail_shape app inv rc delay optExp hinv with
      ⟨res, hnx⟩ | ⟨hrc, hnx | hnx⟩
    · rw [downloadApp_cons_done app inv rest rc delay optExp res hnx]
      simp only [single]
      omega
    · rw [downloadApp_cons_retryClose app inv rest rc delay optExp (rc + 1) _ hnx]
      have hsub := ih hrest (rc + 1) (min (delay * (3 / 2)) MAX_RETRY_DELAY)
        (downloadStep app inv rc delay optExp).record.resolvedExpected
      simp only [chain]
      simp only [MAX_RETRIES] at hsub hrc ⊢
      omega
    · rw [downloadApp_cons_retryErr app inv rest rc delay optExp (rc + 1) _ hnx]
      have hsub := ih hrest (rc + 1) (delay * (3 / 2))
        (downloadStep app inv rc delay optExp).record.resolvedExpected
      simp only [chain]
      simp only [MAX_RETRIES] at hsub hrc ⊢
      omega

/-- Network-classified subprocess failures either retry with an incremented
retry count while budget remains or terminate with a rejection. -/
lemma procEffects_netFail (app : AppInfo) (inv : Invocation) (rc : Nat) (delay : ℚ)
    (h : netFailInv inv = true) :
    (¬ rc < MAX_RETRIES ∧ ∃ er, (procEffects app inv rc delay).next = .done (.rejected er)) ∨
    (rc < MAX_RETRIES ∧
      ((procEffects app inv rc delay).next =
          .retryClose (rc + 1) (min (delay * (3 / 2)) MAX_RETRY_DELAY) ∨
        (procEffects app inv rc delay).next = .retryErr (rc + 1) (delay * (3 / 2)))) := by
  cases hproc : inv.proc with
  | spawnFail msg => simp [netFailInv, hproc] at h
  | stalled => simp [netFailInv, hproc] at h
  | errEvent msg =>
    have htls : isTlsError msg = true := by simpa [netFailInv, hproc] using h
    rcases procEffects_errEvent app inv rc delay msg hproc htls with ⟨hrc, hn⟩ | ⟨hrc, hn⟩
    · exact Or.inr ⟨hrc, Or.inr hn⟩
    · exact Or.inl ⟨hrc, _, hn⟩
  | exit code stderr se an fp fm mt rn =>
    have hfacts : (code ≠ 0 ∧ isNetworkError stderr se = true) ∧
        an.isLicenseRequired = false := by
      simpa [netFailInv, hproc] using h
    have hred : (procEffects app inv rc delay).next =
        (exitFailEffects app inv.purchase rc delay code stderr se an).next := by
      simp [procEffects, hproc, hfacts.1.1]
    rcases exitFailEffects_network app inv.purchase rc delay code stderr se an
        hfacts.1.2 hfacts.2 with ⟨hrc, hn⟩ | ⟨hrc, er, hn⟩
    · exact Or.inr ⟨hrc, Or.inl (hred.trans hn)⟩
    · exact Or.inl ⟨hrc, er, hred.trans hn⟩

/-- When every invocation of a sufficiently long environment fails with a
network classification and passes the gates, the run terminates: its final
attempt rejects, reaching the caller as a rejection or as the unhandled
rejection of an unsettled promise. -/
lemma downloadApp_netFail_terminal (app : AppInfo) :
    ∀ env : List Invocation,
      (∀ inv ∈ env, netFailInv inv = true) →
      (∀ inv ∈ env, inv.authOk = true) →
      (∀ inv ∈ env, ∀ e, (validateDownloadPrereqs inv.prereq app.bundleId app.appName e
        app.appVersion).isValid = true) →
    ∀ (rc : Nat) (delay : ℚ) (optExp : Option Nat),
      (1 + MAX_RETRIES) - min rc MAX_RETRIES ≤ env.length →
      ∃ er, (downloadApp app env rc delay optExp).result = some (.rejected er) ∨
            (downloadApp app env rc delay optExp).result = some (.hungAfter er) := by
  intro env
  induction env with
  | nil =>
    intro _ _ _ rc delay optExp hlen
    simp only [List.length_nil, MAX_RETRIES] at hlen
    omega
  | cons inv rest ih =>
    intro hnet hauth hval rc delay optExp hlen
    have hinv := hnet inv (List.mem_cons_self inv rest)
    have hiauth := hauth inv (List.mem_cons_self inv rest)
    have hival := hval inv (List.mem_cons_self inv rest)
    have hmain := downloadStep_main app inv rc delay optExp hiauth
      (fun _ => hival (resolveExpected inv rc optExp))
    have hnetT : ∀ i ∈ rest, netFailInv i = true :=
      fun i hi => hnet i (List.mem_cons_of_mem inv hi)
    have hauthT : ∀ i ∈ rest, i.authOk = true :=
      fun i hi => hauth i (List.mem_cons_of_mem inv hi)
    have hvalT : ∀ i ∈ rest, ∀ e, (validateDownloadPrereqs i.prereq app.bundleId app.appName e
        app.appVersion).isValid = true :=
      fun i hi => hval i (List.mem_cons_of_mem inv hi)
    rcases procEffects_netFail app inv rc delay hinv with ⟨hrc, er, hnx⟩ | ⟨hrc, hnx | hnx⟩
    · have hnx' : (downloadStep app inv rc delay optExp).next = .done (.rejected er) := by
        rw [hmain]
        exact hnx
      rw [downloadApp_cons_done app inv rest rc delay optExp _ hnx']
      exact ⟨er, Or.inl rfl⟩
    · have hnx' : (downloadStep app inv rc delay optExp).next =
          .retryClose (rc + 1) (min (delay * (3 / 2)) MAX_RETRY_DELAY) := by
        rw [hmain]
        exact hnx
      rw [downloadApp_cons_retryClose app inv rest rc delay optExp _ _ hnx']
      have hlen' : (1 + MAX_RETRIES) - min (rc + 1) MAX_RETRIES ≤ rest.length := by
        simp only [MAX_RETRIES] at hrc
        simp only [List.length_cons, MAX_RETRIES] at hlen ⊢
        omega
      obtain ⟨er, hsub⟩ := ih hnetT hauthT hvalT (rc + 1)
        (min (delay * (3 / 2)) MAX_RETRY_DELAY)
        (downloadStep app inv rc delay optExp).record.resolvedExpected hlen'
      refine ⟨er, Or.inr ?_⟩
      simp only [chain]
      rcases hsub with h | h
      · rw [h]
        rfl
      · rw [h]
        rfl
    · have hnx' : (downloadStep app inv rc delay optExp).next =
          .retryErr (rc + 1) (delay * (3 / 2)) := by
        rw [hmain]
        exact hnx
      rw [downloadApp_cons_retryErr app inv rest rc delay optExp _ _ hnx']
      have hlen' : (1 + MAX_RETRIES) - min (rc + 1) MAX_RETRIES ≤ rest.length := by
        simp only [MAX_RETRIES] at hrc
        simp only [List.length_cons, MAX_RETRIES] at hlen ⊢
        omega
      obtain ⟨er, hsub⟩ := ih hnetT hauthT hvalT (rc + 1) (delay * (3 / 2))
        (downloadStep app inv rc delay optExp).record.resolvedExpected hlen'
      exact ⟨er, by simpa only [chain] using hsub⟩

/-- C1 amended: in an all-network-failure run the subprocess is spawned at
most four times, each retry requires a retry count below three and
increments it; the final attempt rejects, but when the retry chain passed
through the close handler that rejection surfaces as an unhandled rejection
of a promise that never settles rather than as a rejection of the original
call. -/
theorem claim_C1_amended (app : AppInfo) (env : List Invocation)
    (hnet : ∀ inv ∈ env, netFailInv inv = true)
    (hauth : ∀ inv ∈ env, inv.authOk = true)
    (hval : ∀ inv ∈ env, ∀ e, (validateDownloadPrereqs inv.prereq app.bundleId app.appName e
      app.appVersion).isValid = true) :
    (downloadApp app env 0 INITIAL_RETRY_DELAY none).spawns ≤ 1 + MAX_RETRIES ∧
    (1 + MAX_RETRIES ≤ env.length →
      ∃ er, (downloadApp app env 0 INITIAL_RETRY_DELAY none).result = some (.rejected er) ∨
            (downloadApp app env 0 INITIAL_RETRY_DELAY none).result = some (.hungAfter er)) := by
  constructor
  · simpa using downloadApp_netFail_bound app env hnet 0 INITIAL_RETRY_DELAY none
  · intro hlen
    exact downloadApp_netFail_terminal app env hnet hauth hval 0 INITIAL_RETRY_DELAY none
      (by simpa using hlen)

/-- C1 counterexample: four straight network failures spawn exactly four
subprocesses and the final rejection never settles the original promise, so
the operation does not go terminal with a rejection as claimed. -/
theorem claim_C1_counterexample :
    (downloadApp exApp (List.replicate 4 netInv) 0 2000 none).spawns = 4 ∧
    (downloadApp exApp (List.replicate 4 netInv) 0 2000 none).result
      = some (.hungAfter (.download "Process exited with code 1")) ∧
    isRejectedOut (downloadApp exApp (List.replicate 4 netInv) 0 2000 none).result = false := by
  refine ⟨rfl, rfl, ?_⟩
  have h : (downloadApp exApp (List.replicate 4 netInv) 0 2000 none).result
      = some (.hungAfter (.download "Process exited with code 1")) := rfl
  rw [h]
  rfl

/-- C1 witness: the amended claim applied to four concrete network
failures. -/
theorem claim_C1_witness :
    (downloadApp exApp (List.replicate 4 netInv) 0 INITIAL_RETRY_DELAY none).spawns ≤
      1 + MAX_RETRIES ∧
    isResolvedNullOut
      (downloadApp exApp (List.replicate 4 netInv) 0 INITIAL_RETRY_DELAY none).result = false := by
  have h := claim_C1_amended exApp (List.replicate 4 netInv)
    (by
      intro i hi
      rw [List.eq_of_mem_replicate hi]
      rfl)
    (by
      intro i hi
      rw [List.eq_of_mem_replicate hi]
      rfl)
    (by
      intro i hi e
      rw [List.eq_of_mem_replicate hi]
      cases e <;> rfl)
  refine ⟨h.1, ?_⟩
  obtain ⟨er, her | her⟩ := h.2 (by simp [MAX_RETRIES])
  · rw [her]
    rfl
  · rw [her]
    rfl

/-- C2 amended: within the retry budget, a network-classified nonzero exit
passes the capped delay min of one and a half times the current delay and
ten seconds to the next attempt, while a TLS process error event passes one
and a half times the current delay with no cap; fresh attempts start at two
seconds by default. -/
theorem claim_C2_amended (app : AppInfo) (inv : Invocation) (rest : List Invocation)
    (rc : Nat) (delay : ℚ) (optExp : Option Nat)
    (hrc : rc < MAX_RETRIES) (hauth : inv.authOk = true)
    (hval : rc = 0 → (validateDownloadPrereqs inv.prereq app.bundleId app.appName
      (resolveExpected inv rc optExp) app.appVersion).isValid = true) :
    (∀ code stderr se an fp fm mt rn,
      inv.proc = .exit code stderr se an fp fm mt rn → code ≠ 0 →
      isNetworkError stderr se = true →
      Option.all
        (fun r => decide (r.delay = min (delay * (3 / 2)) MAX_RETRY_DELAY ∧ r.rc = rc + 1))
        ((downloadApp app (inv :: rest) rc delay optExp).trace.tail.head?) = true) ∧
    (∀ msg, inv.proc = .errEvent msg → isTlsError msg = true →
      Option.all (fun r => decide (r.delay = delay * (3 / 2) ∧ r.rc = rc + 1))
        ((downloadApp app (inv :: rest) rc delay optExp).trace.tail.head?) = true) := by
  have hmain := downloadStep_main app inv rc delay optExp hauth hval
  constructor
  · intro code stderr se an fp fm mt rn hproc hcode hnet
    have hnx : (downloadStep app inv rc delay optExp).next =
        .retryClose (rc + 1) (min (delay * (3 / 2)) MAX_RETRY_DELAY) := by
      rw [hmain]
      show (procEffects app inv rc delay).next = _
      simp [procEffects, hproc, hcode, exitFailEffects, hnet, hrc]
    rw [downloadApp_cons_retryClose app inv rest rc delay optExp _ _ hnx]
    simp only [chain, List.tail_cons]
    cases rest with
    | nil => rfl
    | cons i2 r2 =>
      cases hh : (downloadApp app (i2 :: r2) (rc + 1)
          (min (delay * (3 / 2)) MAX_RETRY_DELAY)
          (downloadStep app inv rc delay optExp).record.resolvedExpected).trace.head? with
      | none => rfl
      | some r =>
        obtain ⟨h1, h2, _, _⟩ := downloadApp_head app i2 r2 _ _ _ r hh
        simp [Option.all, h1, h2]
  · intro msg hproc htls
    have hnx : (downloadStep app inv rc delay optExp).next =
        .retryErr (rc + 1) (delay * (3 / 2)) := by
      rw [hmain]
      show (procEffects app inv rc delay).next = _
      simp [procEffects, hproc, htls, hrc]
    rw [downloadApp_cons_retryErr app inv rest rc delay optExp _ _ hnx]
    simp only [chain, List.tail_cons]
    cases rest with
    | nil => rfl
    | cons i2 r2 =>
      cases hh : (downloadApp app (i2 :: r2) (rc + 1) (delay * (3 / 2))
          (downloadStep app inv rc delay optExp).record.resolvedExpected).trace.head? with
      | none => rfl
      | some r =>
        obtain ⟨h1, h2, _, _⟩ := downloadApp_head app i2 r2 _ _ _ r hh
        simp [Option.all, h1, h2]

/-- C2 counterexample: two rate-limit backoffs climb the delay to 11250 ms;
the TLS process error that follows passes 16875 ms to the next attempt,
not the capped min of 16875 and 10000 the claim requires on that path. -/
theorem claim_C2_counterexample :
    ((downloadApp exApp [rateInv, rateInv, tlsErrInv, authFalseInv] 0 2000 none).trace.map
      (fun r => r.delay)) = [2000, 7500, 11250, 16875] ∧
    (16875 : ℚ) ≠ min ((11250 : ℚ) * (3 / 2)) MAX_RETRY_DELAY := by
  constructor
  · simp [downloadApp, downloadStep, procEffects, exitFailEffects, exitOkEffects, mkStepRec,
      stepFetchesVal, stepFetchesAll, resolveExpected, jsTruthySize, validateDownloadPrereqs,
      findExistingFile, lookupFile, sanitizeName, strContains, containsFrom, isNetworkError,
      isTlsError, single, chain, closeSettle, MAX_RETRIES, MAX_RETRY_DELAY, INITIAL_RETRY_DELAY,
      rateInv, tlsErrInv, authFalseInv, okPrereq, rateAnalysis, exApp]
    norm_num
  · rw [MAX_RETRY_DELAY]
    norm_num

/-- C2 witness: the amended claim applied to a concrete second attempt with
a network exit and with a TLS process error. -/
theorem claim_C2_witness :
    Option.all
      (fun r => decide (r.delay = min ((2000 : ℚ) * (3 / 2)) MAX_RETRY_DELAY ∧ r.rc = 2))
      ((downloadApp exApp [netInv, authFalseInv] 1 2000 none).trace.tail.head?) = true ∧
    Option.all (fun r => decide (r.delay = (2000 : ℚ) * (3 / 2) ∧ r.rc = 2))
      ((downloadApp exApp [tlsErrInv, authFalseInv] 1 2000 none).trace.tail.head?) = true := by
  have h1 := claim_C2_amended exApp netInv [authFalseInv] 1 2000 none
    (by simp [MAX_RETRIES]) rfl (by simp)
  have h2 := claim_C2_amended exApp tlsErrInv [authFalseInv] 1 2000 none
    (by simp [MAX_RETRIES]) rfl (by simp)
  constructor
  · exact h1.1 1 "network error from server" "" netAnalysis "" none none none rfl
      (by norm_num) rfl
  · exact h2.2 "tls: bad record MAC" rfl rfl

/-- Integrity verdict on the truncated 50 KB artifact: invalid, retryable,
with the too-small message. -/
lemma smallFile_integrity :
    verifyFileIntegrity "/downloads/com.example.app_1_1.0.ipa" (some smallFile) none =
      { isValid := false,
        errorMessage := some "Downloaded file too small: 50 KB (minimum: 1 MB)",
        shouldRetry := some true } := by
  simp [verifyFileIntegrity, smallFile, MIN_FILE_SIZE_BYTES, jsRound]
  norm_num
  rfl

/-- C5 amended: a clean exit whose file fails retryable integrity
verification at retry count zero deletes the corrupted file and issues
exactly one automatic retry at retry count one; when that retry also fails
integrity verification its file is deleted and no further attempt is made,
but the integrity rejection of the retry is awaited inside the async close
callback without a try/catch, so the outer promise hangs on the unhandled
rejection instead of rejecting. -/
theorem claim_C5_amended (app : AppInfo) (inv0 inv1 : Invocation) (rest : List Invocation)
    (optExp : Option Nat) (sd0 sp0 sd1 sp1 : String) (an0 an1 : ErrorAnalysis)
    (p0 p1 : String) (f0 f1 : FileModel) (mt0 mt1 : Option IpatoolMeta)
    (rn0 rn1 : Option String)
    (hproc0 : inv0.proc = .exit 0 sd0 sp0 an0 p0 (some f0) mt0 rn0)
    (hp0 : ¬ p0 = "")
    (hbad0 : (verifyFileIntegrity p0 (some f0) mt0).isValid = false)
    (hret0 : (verifyFileIntegrity p0 (some f0) mt0).shouldRetry = some true)
    (hauth0 : inv0.authOk = true)
    (hval0 : (validateDownloadPrereqs inv0.prereq app.bundleId app.appName
      (resolveExpected inv0 0 optExp) app.appVersion).isValid = true)
    (hproc1 : inv1.proc = .exit 0 sd1 sp1 an1 p1 (some f1) mt1 rn1)
    (hp1 : ¬ p1 = "")
    (hbad1 : (verifyFileIntegrity p1 (some f1) mt1).isValid = false)
    (hauth1 : inv1.authOk = true) :
    (downloadApp app (inv0 :: inv1 :: rest) 0 INITIAL_RETRY_DELAY optExp).spawns = 2 ∧
    ((downloadApp app (inv0 :: inv1 :: rest) 0 INITIAL_RETRY_DELAY optExp).trace.map
      (fun r => r.rc)) = [0, 1] ∧
    (downloadApp app (inv0 :: inv1 :: rest) 0 INITIAL_RETRY_DELAY optExp).deleted = [p0, p1] ∧
    (downloadApp app (inv0 :: inv1 :: rest) 0 INITIAL_RETRY_DELAY optExp).result =
      some (.hungAfter (.integrity ("File integrity verification failed: " ++
        (verifyFileIntegrity p1 (some f1) mt1).errorMessage.getD ""))) := by
  have hE := (downloadStep_record app inv0 0 INITIAL_RETRY_DELAY optExp).2.2.2.1
  have hmain0 := downloadStep_main app inv0 0 INITIAL_RETRY_DELAY optExp hauth0 (fun _ => hval0)
  have heff0 : procEffects app inv0 0 INITIAL_RETRY_DELAY =
      { spawns := 1, purchases := 0, deleted := [p0],
        handled := ["Downloaded file is corrupted: " ++
          (verifyFileIntegrity p0 (some f0) mt0).errorMessage.getD ""],
        next := .retryClose 1 INITIAL_RETRY_DELAY } := by
    simp [procEffects, hproc0, exitOkEffects, hp0, hbad0, hret0]
  have hnx0 : (downloadStep app inv0 0 INITIAL_RETRY_DELAY optExp).next =
      .retryClose 1 INITIAL_RETRY_DELAY := by
    rw [hmain0]
    show (procEffects app inv0 0 INITIAL_RETRY_DELAY).next = _
    rw [heff0]
  have hmain1 := downloadStep_main app inv1 1 INITIAL_RETRY_DELAY
    (resolveExpected inv0 0 optExp) hauth1 (by simp)
  have heff1 : procEffects app inv1 1 INITIAL_RETRY_DELAY =
      { spawns := 1, purchases := 0, deleted := [p1],
        handled := ["Downloaded file is corrupted: " ++
          (verifyFileIntegrity p1 (some f1) mt1).errorMessage.getD ""],
        next := .done (.rejected (.integrity ("File integrity verification failed: " ++
          (verifyFileIntegrity p1 (some f1) mt1).errorMessage.getD ""))) } := by
    simp [procEffects, hproc1, exitOkEffects, hp1, hbad1]
  have hnx1 : (downloadStep app inv1 1 INITIAL_RETRY_DELAY
      (resolveExpected inv0 0 optExp)).next =
      .done (.rejected (.integrity ("File integrity verification failed: " ++
        (verifyFileIntegrity p1 (some f1) mt1).errorMessage.getD ""))) := by
    rw [hmain1]
    show (procEffects app inv1 1 INITIAL_RETRY_DELAY).next = _
    rw [heff1]
  rw [downloadApp_cons_retryClose app inv0 (inv1 :: rest) 0 INITIAL_RETRY_DELAY optExp
    1 INITIAL_RETRY_DELAY hnx0, hE,
    downloadApp_cons_done app inv1 rest 1 INITIAL_RETRY_DELAY
      (resolveExpected inv0 0 optExp) _ hnx1]
  rw [hmain0, hmain1]
  refine ⟨?_, ?_, ?_, ?_⟩ <;>
    simp [chain, single, heff0, heff1, mkStepRec, closeSettle]

/-- C5 counterexample: two consecutive truncated downloads delete both
artifacts and stop after the single automatic retry, but the run does not
reject: it hangs on the unhandled integrity rejection of the retry. -/
theorem claim_C5_counterexample :
    (downloadApp exApp [corruptInv, corruptInv] 0 INITIAL_RETRY_DELAY none).spawns = 2 ∧
    isRejectedOut (downloadApp exApp [corruptInv, corruptInv] 0 INITIAL_RETRY_DELAY
      none).result = false ∧
    (downloadApp exApp [corruptInv, corruptInv] 0 INITIAL_RETRY_DELAY none).result =
      some (.hungAfter (.integrity
        "File integrity verification failed: Downloaded file too small: 50 KB (minimum: 1 MB)")) := by
  refine ⟨?_, ?_, ?_⟩ <;>
    simp [downloadApp, downloadStep, procEffects, exitOkEffects, corruptInv,
      smallFile_integrity, mkStepRec, stepFetchesVal, stepFetchesAll, resolveExpected,
      jsTruthySize, validateDownloadPrereqs, findExistingFile, lookupFile, sanitizeName,
      okPrereq, exApp, single, chain, closeSettle, isRejectedOut, MAX_RETRIES,
      INITIAL_RETRY_DELAY]

/-- C5 witness: the amended claim applied to the concrete truncated
download scenario. -/
theorem claim_C5_witness :
    (downloadApp exApp [corruptInv, corruptInv] 0 INITIAL_RETRY_DELAY none).spawns = 2 ∧
    ((downloadApp exApp [corruptInv, corruptInv] 0 INITIAL_RETRY_DELAY none).trace.map
      (fun r => r.rc)) = [0, 1] ∧
    (downloadApp exApp [corruptInv, corruptInv] 0 INITIAL_RETRY_DELAY none).deleted =
      ["/downloads/com.example.app_1_1.0.ipa", "/downloads/com.example.app_1_1.0.ipa"] ∧
    (downloadApp exApp [corruptInv, corruptInv] 0 INITIAL_RETRY_DELAY none).result =
      some (.hungAfter (.integrity ("File integrity verification failed: " ++
        (verifyFileIntegrity "/downloads/com.example.app_1_1.0.ipa" (some smallFile)
          none).errorMessage.getD ""))) :=
  claim_C5_amended exApp corruptInv corruptInv [] none "" "" "" "" unknownAnalysis
    unknownAnalysis "/downloads/com.example.app_1_1.0.ipa"
    "/downloads/com.example.app_1_1.0.ipa" smallFile smallFile none none none none
    rfl (by decide) (by rw [smallFile_integrity]) (by rw [smallFile_integrity]) rfl rfl
    rfl (by decide) (by rw [smallFile_integrity]) rfl

/-- The example app parses as free. -/
lemma isFreeApp_zero : isFreeApp "0" = true := by
  simp [isFreeApp, parseFloatQ, digitsToNat]

/-- C6 amended: on a license-required classification for a free app, a
vendor-reserved bundle id is immediately terminal with the Apple built-in
explanation and no purchase; otherwise the purchase step runs, but the
retry from retry count zero is issued only when the purchase reports
success — a failed purchase is terminal with no retry, against the
unconditional retry the claim states. -/
theorem claim_C6_amended (app : AppInfo) (inv : Invocation) (rest : List Invocation)
    (rc : Nat) (delay : ℚ) (optExp : Option Nat)
    (code : ℤ) (stderr se : String) (an : ErrorAnalysis) (fp : String)
    (fm : Option FileModel) (mt : Option IpatoolMeta) (rn : Option String)
    (hproc : inv.proc = .exit code stderr se an fp fm mt rn)
    (hcode : ¬ code = 0)
    (hnet : isNetworkError stderr se = false)
    (htype : an.errorType = .license_required)
    (hlic : an.isLicenseRequired = true)
    (hAuthE : an.isAuthError = false)
    (hfree : isFreeApp app.price = true)
    (hauth : inv.authOk = true)
    (hval : rc = 0 → (validateDownloadPrereqs inv.prereq app.bundleId app.appName
      (resolveExpected inv rc optExp) app.appVersion).isValid = true) :
    (strStartsWith app.bundleId "com.apple." = true →
      (downloadApp app (inv :: rest) rc delay optExp).purchases = 0 ∧
      (downloadApp app (inv :: rest) rc delay optExp).trace.length = 1 ∧
      (downloadApp app (inv :: rest) rc delay optExp).handledErrors =
        ["\"" ++ (if app.appName = "" then app.bundleId else app.appName) ++
          "\" is an Apple built-in app and cannot be downloaded using third-party tools like ipatool. These apps are pre-installed on iOS devices or available only through official Apple channels."] ∧
      (downloadApp app (inv :: rest) rc delay optExp).result =
        some (.rejected (.download ("Process exited with code " ++ toString code)))) ∧
    (strStartsWith app.bundleId "com.apple." = false → inv.purchase = .returns false →
      (downloadApp app (inv :: rest) rc delay optExp).purchases = 1 ∧
      (downloadApp app (inv :: rest) rc delay optExp).trace.length = 1 ∧
      (downloadApp app (inv :: rest) rc delay optExp).result =
        some (.rejected (.download ("Process exited with code " ++ toString code)))) ∧
    (strStartsWith app.bundleId "com.apple." = false → inv.purchase = .returns true →
      (downloadApp app (inv :: rest) rc delay optExp).purchases =
        1 + (downloadApp app rest 0 INITIAL_RETRY_DELAY
          (resolveExpected inv rc optExp)).purchases ∧
      (downloadApp app (inv :: rest) rc delay optExp).trace.length =
        1 + (downloadApp app rest 0 INITIAL_RETRY_DELAY
          (resolveExpected inv rc optExp)).trace.length ∧
      Option.all (fun r => decide (r.rc = 0 ∧ r.delay = INITIAL_RETRY_DELAY))
        ((downloadApp app (inv :: rest) rc delay optExp).trace.tail.head?) = true) := by
  have hE := (downloadStep_record app inv rc delay optExp).2.2.2.1
  have hmain := downloadStep_main app inv rc delay optExp hauth hval
  refine ⟨?_, ?_, ?_⟩
  · intro hApple
    have heff : procEffects app inv rc delay =
        { spawns := 1, purchases := 0, deleted := [],
          handled := ["\"" ++ (if app.appName = "" then app.bundleId else app.appName) ++
            "\" is an Apple built-in app and cannot be downloaded using third-party tools like ipatool. These apps are pre-installed on iOS devices or available only through official Apple channels."],
          next := .done (.rejected (.download ("Process exited with code " ++
            toString code))) } := by
      simp [procEffects, hproc, hcode, exitFailEffects, hnet, htype, hlic, hfree, hApple,
        hAuthE]
    have hnx : (downloadStep app inv rc delay optExp).next =
        .done (.rejected (.download ("Process exited with code " ++ toString code))) := by
      rw [hmain]
      show (procEffects app inv rc delay).next = _
      rw [heff]
    rw [downloadApp_cons_done app inv rest rc delay optExp _ hnx, hmain]
    refine ⟨?_, ?_, ?_, ?_⟩ <;> simp [single, heff]
  · intro hApple hpur
    have heff : procEffects app inv rc delay =
        { spawns := 1, purchases := 1, deleted := [],
          handled := ["License purchase failed for free app \"" ++
            (if app.appName = "" then app.bundleId else app.appName) ++
            "\". This may be due to authentication issues or App Store restrictions."],
          next := .done (.rejected (.download ("Process exited with code " ++
            toString code))) } := by
      simp [procEffects, hproc, hcode, exitFailEffects, hnet, htype, hlic, hfree, hApple,
        hAuthE, hpur]
    have hnx : (downloadStep app inv rc delay optExp).next =
        .done (.rejected (.download ("Process exited with code " ++ toString code))) := by
      rw [hmain]
      show (procEffects app inv rc delay).next = _
      rw [heff]
    rw [downloadApp_cons_done app inv rest rc delay optExp _ hnx, hmain]
    refine ⟨?_, ?_, ?_⟩ <;> simp [single, heff]
  · intro hApple hpur
    have heff : procEffects app inv rc delay =
        { spawns := 1, purchases := 1, deleted := [], handled := [],
          next := .retryLicense an.isAuthError
            (if app.appName = "" then app.bundleId else app.appName)
            ("Process exited with code " ++ toString code) } := by
      simp [procEffects, hproc, hcode, exitFailEffects, hnet, htype, hlic, hfree, hApple,
        hpur]
    have hnx : (downloadStep app inv rc delay optExp).next =
        .retryLicense an.isAuthError
          (if app.appName = "" then app.bundleId else app.appName)
          ("Process exited with code " ++ toString code) := by
      rw [hmain]
      show (procEffects app inv rc delay).next = _
      rw [heff]
    obtain ⟨htr, hsp, hpu⟩ := downloadApp_cons_license_stats app inv rest rc delay optExp
      _ _ _ hnx
    rw [hE] at htr hpu
    have hstp : (downloadStep app inv rc delay optExp).purchases = 1 := by
      rw [hmain]
      show (procEffects app inv rc delay).purchases = 1
      rw [heff]
    refine ⟨?_, ?_, ?_⟩
    · rw [hpu, hstp]
    · rw [htr]
      simp [Nat.add_comm]
    · rw [htr]
      simp only [List.tail_cons]
      cases rest with
      | nil => rfl
      | cons i2 r2 =>
        cases hh : (downloadApp app (i2 :: r2) 0 INITIAL_RETRY_DELAY
            (resolveExpected inv rc optExp)).trace.head? with
        | none => rfl
        | some r =>
          obtain ⟨h1, h2, _, _⟩ := downloadApp_head app i2 r2 _ _ _ r hh
          simp [Option.all, h1, h2]

/-- C6 counterexample: a license-required failure on a free non-vendor app
whose purchase step reports failure is terminal after one invocation — the
second environment entry is never consumed, no retry happens, against the
unconditional purchase-then-retry the claim states. -/
theorem claim_C6_counterexample :
    (downloadApp exApp [licFailInv, netInv] 0 2000 none).purchases = 1 ∧
    (downloadApp exApp [licFailInv, netInv] 0 2000 none).spawns = 1 ∧
    (downloadApp exApp [licFailInv, netInv] 0 2000 none).trace.length = 1 ∧
    (downloadApp exApp [licFailInv, netInv] 0 2000 none).result =
      some (.rejected (.download "Process exited with code 1")) := by
  refine ⟨?_, ?_, ?_, ?_⟩ <;>
    simp [downloadApp, downloadStep, procEffects, exitFailEffects, mkStepRec, stepFetchesVal,
      stepFetchesAll, resolveExpected, jsTruthySize, validateDownloadPrereqs, findExistingFile,
      lookupFile, sanitizeName, okPrereq, exApp, licFailInv, licenseAnalysis, isNetworkError,
      strContains, containsFrom, strStartsWith, isFreeApp_zero, single, chain, closeSettle,
      MAX_RETRIES]
  rfl

/-- C6 witness: the amended claim applied to the vendor-reserved app, to the
failed purchase and to the successful purchase, each on concrete
environments. -/
theorem claim_C6_witness :
    ((downloadApp appleApp [licFailInv] 0 2000 none).purchases = 0 ∧
     (downloadApp appleApp [licFailInv] 0 2000 none).trace.length = 1 ∧
     (downloadApp appleApp [licFailInv] 0 2000 none).handledErrors =
       ["\"" ++ (if appleApp.appName = "" then appleApp.bundleId else appleApp.appName) ++
         "\" is an Apple built-in app and cannot be downloaded using third-party tools like ipatool. These apps are pre-installed on iOS devices or available only through official Apple channels."] ∧
     (downloadApp appleApp [licFailInv] 0 2000 none).result =
       some (.rejected (.download ("Process exited with code " ++ toString (1 : ℤ))))) ∧
    ((downloadApp exApp [licFailInv] 0 2000 none).purchases = 1 ∧
     (downloadApp exApp [licFailInv] 0 2000 none).trace.length = 1 ∧
     (downloadApp exApp [licFailInv] 0 2000 none).result =
       some (.rejected (.download ("Process exited with code " ++ toString (1 : ℤ))))) ∧
    ((downloadApp exApp [licOkInv, authFalseInv] 0 2000 none).purchases =
       1 + (downloadApp exApp [authFalseInv] 0 INITIAL_RETRY_DELAY
         (resolveExpected licOkInv 0 none)).purchases ∧
     (downloadApp exApp [licOkInv, authFalseInv] 0 2000 none).trace.length =
       1 + (downloadApp exApp [authFalseInv] 0 INITIAL_RETRY_DELAY
         (resolveExpected licOkInv 0 none)).trace.length ∧
     Option.all (fun r => decide (r.rc = 0 ∧ r.delay = INITIAL_RETRY_DELAY))
       ((downloadApp exApp [licOkInv, authFalseInv] 0 2000 none).trace.tail.head?) = true) := by
  refine ⟨(claim_C6_amended appleApp licFailInv [] 0 2000 none 1 "license is required" ""
      licenseAnalysis "" none none none rfl (by norm_num) rfl rfl rfl rfl
      (by simp [appleApp, isFreeApp_zero]) rfl (fun _ => rfl)).1 rfl,
    (claim_C6_amended exApp licFailInv [] 0 2000 none 1 "license is required" ""
      licenseAnalysis "" none none none rfl (by norm_num) rfl rfl rfl rfl
      (by simp [exApp, isFreeApp_zero]) rfl (fun _ => rfl)).2.1 rfl rfl,
    (claim_C6_amended exApp licOkInv [authFalseInv] 0 2000 none 1 "license is required" ""
      licenseAnalysis "" none none none rfl (by norm_num) rfl rfl rfl rfl
      (by simp [exApp, isFreeApp_zero]) rfl (fun _ => rfl)).2.2 rfl rfl⟩

end IpaDownload
